import Mathlib

set_option maxRecDepth 8000

/-! Shallow embedding of the flash-sdk pricing core:
`src/programs/flash-read/src/states.rs`, `src/programs/flash-read/src/error.rs`
and `src/programs/flash-compute/src/lib.rs`.  Unsigned machine integers are
embedded as `Nat` with explicit `2^64` / `2^128` bounds checked where the code
checks them; signed ones as `Int` with explicit i32/i64 range checks.  Fallible
Rust code (`Result`) is embedded as `Except Failure`. -/

/-- Error enum of the programs (src/programs/flash-read/src/error.rs; the
InvalidOraclePrice variant is referenced from states.rs). -/
inductive CompError where
  | MathOverflow
  | ExponentMismatch
  | InvalidOraclePrice
deriving DecidableEq

/-- Outcome of a fallible computation: a returned program error, or a Rust
panic (out-of-bounds indexing, `Option::unwrap` on `None`). -/
inductive Failure where
  | err (e : CompError)
  | panicked
deriving DecidableEq

/- Machine-integer ranges. -/

def U64_SIZE : Nat := 2 ^ 64

def U128_SIZE : Nat := 2 ^ 128

def I64_MIN : Int := -(2 ^ 63)

def I64_MAX : Int := 2 ^ 63 - 1

def I32_MIN : Int := -(2 ^ 31)

def I32_MAX : Int := 2 ^ 31 - 1

/- Global numeric constants (states.rs, `impl Perpetuals` and module consts). -/

def BPS_POWER : Nat := 10 ^ 4

def RATE_POWER : Nat := 10 ^ 9

def USD_DECIMALS : Nat := 6

def LP_DECIMALS : Nat := 6

def ORACLE_EXPONENT_SCALE : Int := -9

def ORACLE_PRICE_SCALE : Nat := 1000000000

def ORACLE_MAX_PRICE : Nat := 2 ^ 28 - 1

/-- Rust `i64::saturating_sub`. -/
def satSub_i64 (a b : Int) : Int := max I64_MIN (min I64_MAX (a - b))

/-- Rust `u64::saturating_sub` (on `Nat`, truncated subtraction). -/
def satSub_u64 (a b : Nat) : Nat := a - b

/-- Rust `u64::saturating_add`. -/
def satAdd_u64 (a b : Nat) : Nat := min (a + b) (U64_SIZE - 1)

/- ------------------------------------------------------------------
Checked arithmetic library.

Modelled from the spec: the module `flash_read::math` is used throughout
src/programs but its source file is not under src/; spec section 4.1 defines
its contract: add, sub, mul, div, pow, ceil_div over unsigned 64- and 128-bit
integers plus a narrowing 128-to-64 conversion, every operation failing
explicitly (MathOverflow) on overflow, underflow below zero or division by
zero, never wrapping and never panicking.
------------------------------------------------------------------ -/

/-- Modelled from the spec: checked u64 addition. -/
def checked_add_u64 (a b : Nat) : Except Failure Nat :=
  if a + b < U64_SIZE then .ok (a + b) else .error (.err .MathOverflow)

/-- Modelled from the spec: checked u64 subtraction (fails below zero). -/
def checked_sub_u64 (a b : Nat) : Except Failure Nat :=
  if b ≤ a then .ok (a - b) else .error (.err .MathOverflow)

/-- Modelled from the spec: checked u64 multiplication. -/
def checked_mul_u64 (a b : Nat) : Except Failure Nat :=
  if a * b < U64_SIZE then .ok (a * b) else .error (.err .MathOverflow)

/-- Modelled from the spec: checked u64 division (fails on zero divisor). -/
def checked_div_u64 (a b : Nat) : Except Failure Nat :=
  if b = 0 then .error (.err .MathOverflow) else .ok (a / b)

/-- Modelled from the spec: checked u64 exponentiation. -/
def checked_pow_u64 (b e : Nat) : Except Failure Nat :=
  if b ^ e < U64_SIZE then .ok (b ^ e) else .error (.err .MathOverflow)

/-- Modelled from the spec: checked u128 addition. -/
def checked_add_u128 (a b : Nat) : Except Failure Nat :=
  if a + b < U128_SIZE then .ok (a + b) else .error (.err .MathOverflow)

/-- Modelled from the spec: checked u128 subtraction (fails below zero). -/
def checked_sub_u128 (a b : Nat) : Except Failure Nat :=
  if b ≤ a then .ok (a - b) else .error (.err .MathOverflow)

/-- Modelled from the spec: checked u128 multiplication. -/
def checked_mul_u128 (a b : Nat) : Except Failure Nat :=
  if a * b < U128_SIZE then .ok (a * b) else .error (.err .MathOverflow)

/-- Modelled from the spec: checked u128 division (fails on zero divisor). -/
def checked_div_u128 (a b : Nat) : Except Failure Nat :=
  if b = 0 then .error (.err .MathOverflow) else .ok (a / b)

/-- Modelled from the spec: checked u128 exponentiation. -/
def checked_pow_u128 (b e : Nat) : Except Failure Nat :=
  if b ^ e < U128_SIZE then .ok (b ^ e) else .error (.err .MathOverflow)

/-- Modelled from the spec: checked u128 ceiling division, rounded up so fee
amounts are never under-counted; fails on zero divisor. -/
def checked_ceil_div_u128 (a b : Nat) : Except Failure Nat :=
  if b = 0 then .error (.err .MathOverflow) else .ok ((a + b - 1) / b)

/-- Modelled from the spec: narrowing 128-to-64-bit conversion that fails
rather than truncating. -/
def checked_as_u64 (a : Nat) : Except Failure Nat :=
  if a < U64_SIZE then .ok a else .error (.err .MathOverflow)

/-- Modelled from the spec: checked i32 addition. -/
def checked_add_i32 (a b : Int) : Except Failure Int :=
  if I32_MIN ≤ a + b ∧ a + b ≤ I32_MAX then .ok (a + b) else .error (.err .MathOverflow)

/-- Modelled from the spec: checked i32 subtraction. -/
def checked_sub_i32 (a b : Int) : Except Failure Int :=
  if I32_MIN ≤ a - b ∧ a - b ≤ I32_MAX then .ok (a - b) else .error (.err .MathOverflow)

/-- Modelled from the spec: checked i64 subtraction. -/
def checked_sub_i64 (a b : Int) : Except Failure Int :=
  if I64_MIN ≤ a - b ∧ a - b ≤ I64_MAX then .ok (a - b) else .error (.err .MathOverflow)

/-- Modelled from the spec: decimal-aware multiply (mantissa/exponent pairs):
multiply the mantissas in 128 bits, combine the exponents by addition, then
rescale the raw result to the caller-specified target exponent, truncating on
the narrowing division, and narrow to u64. -/
def checked_decimal_mul (c1 : Nat) (e1 : Int) (c2 : Nat) (e2 : Int) (te : Int) :
    Except Failure Nat :=
  match checked_mul_u128 c1 c2 with
  | .error f => .error f
  | .ok raw =>
    let d : Int := e1 + e2 - te
    if 0 ≤ d then
      match checked_pow_u128 10 d.toNat with
      | .error f => .error f
      | .ok pw =>
        match checked_mul_u128 raw pw with
        | .error f => .error f
        | .ok scaled => checked_as_u64 scaled
    else
      match checked_pow_u128 10 (-d).toNat with
      | .error f => .error f
      | .ok pw =>
        match checked_div_u128 raw pw with
        | .error f => .error f
        | .ok scaled => checked_as_u64 scaled

/-- Modelled from the spec: the ceiling variant of `checked_decimal_mul`; the
final rescale rounds up instead of truncating. -/
def checked_decimal_ceil_mul (c1 : Nat) (e1 : Int) (c2 : Nat) (e2 : Int) (te : Int) :
    Except Failure Nat :=
  match checked_mul_u128 c1 c2 with
  | .error f => .error f
  | .ok raw =>
    let d : Int := e1 + e2 - te
    if 0 ≤ d then
      match checked_pow_u128 10 d.toNat with
      | .error f => .error f
      | .ok pw =>
        match checked_mul_u128 raw pw with
        | .error f => .error f
        | .ok scaled => checked_as_u64 scaled
    else
      match checked_pow_u128 10 (-d).toNat with
      | .error f => .error f
      | .ok pw =>
        match checked_ceil_div_u128 raw pw with
        | .error f => .error f
        | .ok scaled => checked_as_u64 scaled

/-- Modelled from the spec: decimal-aware divide: divide the mantissas
directly, combine the exponents by subtraction, then rescale the raw result to
the caller-specified target exponent and narrow to u64; fails on a zero
divisor. -/
def checked_decimal_div (c1 : Nat) (e1 : Int) (c2 : Nat) (e2 : Int) (te : Int) :
    Except Failure Nat :=
  match checked_div_u128 c1 c2 with
  | .error f => .error f
  | .ok raw =>
    let d : Int := e1 - e2 - te
    if 0 ≤ d then
      match checked_pow_u128 10 d.toNat with
      | .error f => .error f
      | .ok pw =>
        match checked_mul_u128 raw pw with
        | .error f => .error f
        | .ok scaled => checked_as_u64 scaled
    else
      match checked_pow_u128 10 (-d).toNat with
      | .error f => .error f
      | .ok pw =>
        match checked_div_u128 raw pw with
        | .error f => .error f
        | .ok scaled => checked_as_u64 scaled

/- ------------------------------------------------------------------
Decimal price type (states.rs, `OraclePrice`).
------------------------------------------------------------------ -/

/-- states.rs `OraclePrice { price: u64, exponent: i32 }`: mantissa times ten
to the exponent. -/
structure OraclePrice where
  price : Nat
  exponent : Int
deriving DecidableEq

/-- The body of the `while` loop of `OraclePrice::normalize`, with the initial
mantissa as structural fuel: the mantissa strictly decreases on every
iteration (it is divided by 10 while above `ORACLE_MAX_PRICE` ≥ 1), so a fuel
equal to the starting mantissa never runs out and the function computes
exactly the Rust loop.  `checked_div(p, 10)` cannot fail and is inlined as
`p / 10`. -/
def normalizeGo : Nat → Nat → Int → Except Failure (Nat × Int)
  | 0, p, e => .ok (p, e)
  | fuel + 1, p, e =>
    if ORACLE_MAX_PRICE < p then
      match checked_add_i32 e 1 with
      | .error f => .error f
      | .ok e2 => normalizeGo fuel (p / 10) e2
    else .ok (p, e)

/-- states.rs `OraclePrice::normalize`: divide the mantissa by 10 and bump the
exponent while the mantissa exceeds `ORACLE_MAX_PRICE`. -/
def OraclePrice.normalize (a : OraclePrice) : Except Failure OraclePrice :=
  match normalizeGo a.price a.price a.exponent with
  | .error f => .error f
  | .ok pe => .ok ⟨pe.1, pe.2⟩

/-- states.rs `OraclePrice::scale_to_exponent`. -/
def OraclePrice.scale_to_exponent (p : OraclePrice) (target_exponent : Int) :
    Except Failure OraclePrice :=
  if target_exponent = p.exponent then .ok p
  else
    match checked_sub_i32 target_exponent p.exponent with
    | .error f => .error f
    | .ok delta =>
      if 0 < delta then
        match checked_pow_u64 10 delta.toNat with
        | .error f => .error f
        | .ok pw =>
          match checked_div_u64 p.price pw with
          | .error f => .error f
          | .ok q => .ok ⟨q, target_exponent⟩
      else
        match checked_pow_u64 10 (-delta).toNat with
        | .error f => .error f
        | .ok pw =>
          match checked_mul_u64 p.price pw with
          | .error f => .error f
          | .ok q => .ok ⟨q, target_exponent⟩

/-- states.rs `OraclePrice::checked_sub`: requires exactly equal exponents,
failing with ExponentMismatch otherwise. -/
def OraclePrice.checked_sub (a b : OraclePrice) : Except Failure OraclePrice :=
  if a.exponent = b.exponent then
    match checked_sub_u64 a.price b.price with
    | .error f => .error f
    | .ok d => .ok ⟨d, a.exponent⟩
  else .error (.err .ExponentMismatch)

/-- states.rs `OraclePrice::checked_div`: normalize both operands, then
mantissa = base.price * ORACLE_PRICE_SCALE / other.price and exponent =
base.exponent + ORACLE_EXPONENT_SCALE - other.exponent. -/
def OraclePrice.checked_div (a b : OraclePrice) : Except Failure OraclePrice :=
  match a.normalize with
  | .error f => .error f
  | .ok base =>
    match b.normalize with
    | .error f => .error f
    | .ok o =>
      match checked_mul_u64 base.price ORACLE_PRICE_SCALE with
      | .error f => .error f
      | .ok m =>
        match checked_div_u64 m o.price with
        | .error f => .error f
        | .ok p =>
          match checked_add_i32 base.exponent ORACLE_EXPONENT_SCALE with
          | .error f => .error f
          | .ok e1 =>
            match checked_sub_i32 e1 o.exponent with
            | .error f => .error f
            | .ok e => .ok ⟨p, e⟩

/-- states.rs `impl PartialOrd for OraclePrice`: if the exponents differ, the
operand with the larger exponent is rescaled down to the smaller exponent
before the mantissas are compared; `none` if that rescale fails.  (The name
follows Rust's PartialOrd method.) -/
def OraclePrice.pcmp (a b : OraclePrice) : Option Ordering :=
  if a.exponent = b.exponent then some (compare a.price b.price)
  else if a.exponent < b.exponent then
    match b.scale_to_exponent a.exponent with
    | .ok s => some (compare a.price s.price)
    | .error _ => none
  else
    match a.scale_to_exponent b.exponent with
    | .ok s => some (compare s.price b.price)
    | .error _ => none

/-- The derived Rust `PartialEq` of states.rs `OraclePrice` (`#[derive(..,
PartialEq, ..)]`): field-wise structural equality of mantissa and exponent. -/
def OraclePrice.structEq (a b : OraclePrice) : Bool :=
  a.price == b.price && a.exponent == b.exponent

/-- Two mantissa/exponent pairs denote the same real value
mantissa * 10^exponent (stated over integers by clearing the common
denominator). -/
def sameRealValue (a b : OraclePrice) : Prop :=
  a.price * 10 ^ (a.exponent - min a.exponent b.exponent).toNat =
    b.price * 10 ^ (b.exponent - min a.exponent b.exponent).toNat

instance (a b : OraclePrice) : Decidable (sameRealValue a b) := by
  unfold sameRealValue; infer_instance

/-- states.rs `OraclePrice::get_asset_amount_usd`: token amount at the token's
decimals times the price, rescaled to USD decimals; zero amount or zero price
short-circuits to 0 without error. -/
def OraclePrice.get_asset_amount_usd (p : OraclePrice) (token_amount : Nat)
    (token_decimals : Nat) : Except Failure Nat :=
  if token_amount = 0 ∨ p.price = 0 then .ok 0
  else
    checked_decimal_mul token_amount (-(token_decimals : Int)) p.price p.exponent
      (-(USD_DECIMALS : Int))

/-- states.rs `OraclePrice::get_divergence`: |price - reference| / reference,
expressed at the basis-point exponent. -/
def get_divergence (price reference : OraclePrice) : Except Failure Nat :=
  match
    (if price.pcmp reference = some Ordering.gt then
      match price.checked_sub reference with
      | .error f => .error f
      | .ok d => d.checked_div reference
    else
      match reference.checked_sub price with
      | .error f => .error f
      | .ok d => d.checked_div reference : Except Failure OraclePrice) with
  | .error f => .error f
  | .ok factor =>
    match factor.scale_to_exponent (-4 : Int) with
    | .error f => .error f
    | .ok s => .ok s.price

/- ------------------------------------------------------------------
Oracle ingestion (states.rs, `CustomOracle`, `OracleParams`,
`OraclePrice::fetch_from_oracle`).
------------------------------------------------------------------ -/

/-- states.rs `CustomOracle`: a raw feed reading. -/
structure CustomOracle where
  price : Nat
  expo : Int
  conf : Nat
  ema : Nat
  publish_time : Int
deriving DecidableEq

/-- states.rs `OracleParams` (the fields consumed by fetch_from_oracle). -/
structure OracleParams where
  max_divergence_bps : Nat
  max_conf_bps : Nat
  max_price_age_sec : Nat
  max_backup_age_sec : Nat
deriving DecidableEq

/-- The divergence computation inside `fetch_from_oracle`: against a fixed
1.0 USD reference for stable assets (10^|expo| at the feed exponent), against
the feed's EMA price otherwise. -/
def computeDivergenceBps (o : CustomOracle) (is_stable : Bool) : Except Failure Nat :=
  if is_stable then
    match checked_pow_u64 10 o.expo.natAbs with
    | .error f => .error f
    | .ok pw => get_divergence ⟨o.price, o.expo⟩ ⟨pw, o.expo⟩
  else get_divergence ⟨o.price, o.expo⟩ ⟨o.ema, o.expo⟩

/-- states.rs `OraclePrice::fetch_from_oracle`: returns
(min_price, max_price, volatility_flag) after the staleness, divergence and
confidence checks. -/
def fetch_from_oracle (o : CustomOracle) (params : OracleParams)
    (current_time : Int) (is_stable : Bool) :
    Except Failure (OraclePrice × OraclePrice × Bool) :=
  if (params.max_price_age_sec : Int) < satSub_i64 current_time o.publish_time then
    .error (.err .InvalidOraclePrice)
  else
    match computeDivergenceBps o is_stable with
    | .error f => .error f
    | .ok divergence_bps =>
      if divergence_bps < params.max_divergence_bps then
        .ok (⟨o.price, o.expo⟩, ⟨o.price, o.expo⟩, false)
      else
        match checked_mul_u128 o.conf BPS_POWER with
        | .error f => .error f
        | .ok num =>
          match checked_div_u128 num o.price with
          | .error f => .error f
          | .ok conf_bps =>
            if conf_bps < params.max_conf_bps then
              match checked_sub_u64 o.price o.conf with
              | .error f => .error f
              | .ok lo =>
                match checked_add_u64 o.price o.conf with
                | .error f => .error f
                | .ok hi => .ok (⟨lo, o.expo⟩, ⟨hi, o.expo⟩, true)
            else .error (.err .InvalidOraclePrice)

/-- The staleness predicate of `fetch_from_oracle`, stated on its own so that
claims about callers that skip the check can refer to it. -/
def isStale (publish_time : Int) (max_price_age_sec : Nat) (current_time : Int) : Prop :=
  (max_price_age_sec : Int) < satSub_i64 current_time publish_time

instance (p : Int) (m : Nat) (c : Int) : Decidable (isStale p m c) := by
  unfold isStale; infer_instance

/- ------------------------------------------------------------------
Custody, fee accrual (states.rs, `BorrowRateState`, `Custody`).
------------------------------------------------------------------ -/

/-- states.rs `BorrowRateState`. -/
structure BorrowRateState where
  current_rate : Nat
  cumulative_lock_fee : Nat
  last_update : Int
deriving DecidableEq

/-- states.rs `Custody`, restricted to the fields read by the computations
under verification (account keys, bumps and unrelated parameters omitted). -/
structure Custody where
  decimals : Nat
  is_stable : Bool
  is_virtual : Bool
  fees_close_position : Nat
  pricing_max_leverage : Nat
  borrow_rate_state : BorrowRateState
deriving DecidableEq

/-- states.rs `Position`, restricted to the numeric fields read by the
computations under verification. -/
structure Position where
  update_time : Int
  entry_price : OraclePrice
  size_amount : Nat
  size_usd : Nat
  locked_amount : Nat
  locked_usd : Nat
  collateral_amount : Nat
  collateral_usd : Nat
  unsettled_amount : Nat
  unsettled_fees_usd : Nat
  cumulative_lock_fee_snapshot : Nat
  size_decimals : Nat
  locked_decimals : Nat
  collateral_decimals : Nat
deriving DecidableEq

/-- Rust `Position::default()` (derive Default): all fields zero. -/
def defaultPosition : Position :=
  ⟨0, ⟨0, 0⟩, 0, 0, 0, 0, 0, 0, 0, 0, 0, 0, 0, 0⟩

/-- states.rs `Custody::get_cumulative_lock_fee`: accrue
ceil((curtime - last_update) * current_rate / 3600) on top of the stored
cumulative index when curtime is past last_update, else return the stored
index unchanged. -/
def get_cumulative_lock_fee (c : Custody) (curtime : Int) : Except Failure Nat :=
  if c.borrow_rate_state.last_update < curtime then
    match checked_sub_i64 curtime c.borrow_rate_state.last_update with
    | .error f => .error f
    | .ok dt =>
      match checked_mul_u128 dt.toNat c.borrow_rate_state.current_rate with
      | .error f => .error f
      | .ok prod =>
        match checked_ceil_div_u128 prod 3600 with
        | .error f => .error f
        | .ok fee => checked_add_u128 c.borrow_rate_state.cumulative_lock_fee fee
  else .ok c.borrow_rate_state.cumulative_lock_fee

/-- states.rs `Custody::get_lock_fee_usd`: 0 for zero locked USD or a virtual
custody; otherwise the delta between the custody's current cumulative index
and the position's snapshot (0 if the snapshot is ahead), scaled by the
position's locked USD over the rate scale. -/
def get_lock_fee_usd (c : Custody) (p : Position) (curtime : Int) : Except Failure Nat :=
  if p.locked_usd = 0 ∨ c.is_virtual = true then .ok 0
  else
    match get_cumulative_lock_fee c curtime with
    | .error f => .error f
    | .ok cum =>
      if p.cumulative_lock_fee_snapshot < cum then
        match checked_sub_u128 cum p.cumulative_lock_fee_snapshot with
        | .error f => .error f
        | .ok d =>
          match checked_mul_u128 d p.locked_usd with
          | .error f => .error f
          | .ok prod =>
            match checked_div_u128 prod RATE_POWER with
            | .error f => .error f
            | .ok q => checked_as_u64 q
      else .ok 0

/- ------------------------------------------------------------------
Market and the collective position (states.rs, `PositionStats`, `Market`).
------------------------------------------------------------------ -/

/-- states.rs `Side`. -/
inductive Side where
  | None
  | Long
  | Short
deriving DecidableEq

/-- states.rs `PositionStats`: a market's running totals over its open
positions. -/
structure PositionStats where
  open_positions : Nat
  update_time : Int
  average_entry_price : OraclePrice
  size_amount : Nat
  size_usd : Nat
  locked_amount : Nat
  locked_usd : Nat
  collateral_amount : Nat
  collateral_usd : Nat
  unsettled_fee_usd : Nat
  cumulative_lock_fee_snapshot : Nat
  size_decimals : Nat
  locked_decimals : Nat
  collateral_decimals : Nat
deriving DecidableEq

/-- states.rs `Market`, restricted to the fields read by the computations
under verification. -/
structure Market where
  side : Side
  correlation : Bool
  max_payoff_bps : Nat
  open_interest : Nat
  collective_position : PositionStats
  target_custody_id : Nat
  collateral_custody_id : Nat
deriving DecidableEq

/-- states.rs `Market::get_collective_position`: the netted position of all
open positions of a market; a defaulted (all-zero) position when there are no
open positions.  The Rust function returns `Result` but never fails, so it is
embedded as a pure function. -/
def get_collective_position (m : Market) : Position :=
  if 0 < m.collective_position.open_positions then
    ⟨m.collective_position.update_time,
     (if 0 < m.collective_position.size_amount then
        m.collective_position.average_entry_price
      else ⟨0, m.collective_position.average_entry_price.exponent⟩),
     m.collective_position.size_amount,
     m.collective_position.size_usd,
     m.collective_position.locked_amount,
     m.collective_position.locked_usd,
     m.collective_position.collateral_amount,
     0, 0,
     m.collective_position.unsettled_fee_usd,
     m.collective_position.cumulative_lock_fee_snapshot,
     m.collective_position.size_decimals,
     m.collective_position.locked_decimals,
     m.collective_position.collateral_decimals⟩
  else defaultPosition

/- ------------------------------------------------------------------
Liquidation price (flash-compute lib.rs, `get_liquidation_price`), with
states.rs `Pool::get_fee_amount`.
------------------------------------------------------------------ -/

/-- states.rs `Pool::get_fee_amount`: ceil(amount * fee / RATE_POWER),
narrowed to u64, with a 0 short-circuit when either input is 0.  (Reads no
pool state, so the receiver is dropped.) -/
def get_fee_amount (fee : Nat) (amount : Nat) : Except Failure Nat :=
  if fee = 0 ∨ amount = 0 then .ok 0
  else
    match checked_mul_u128 amount fee with
    | .error f => .error f
    | .ok prod =>
      match checked_ceil_div_u128 prod RATE_POWER with
      | .error f => .error f
      | .ok q => checked_as_u64 q

/-- The total-liabilities computation at the head of flash-compute
`get_liquidation_price`: closing fee + accrued lock fee + unsettled fees +
the implied max-leverage liability, all with checked addition. -/
def computeLiabilitiesUsd (position : Position) (target_custody collateral_custody : Custody)
    (curtime : Int) : Except Failure Nat :=
  match get_fee_amount position.size_usd target_custody.fees_close_position with
  | .error f => .error f
  | .ok closing_fee =>
    match get_lock_fee_usd collateral_custody position curtime with
    | .error f => .error f
    | .ok lock_fee =>
      match checked_add_u64 closing_fee lock_fee with
      | .error f => .error f
      | .ok fees_a =>
        match checked_mul_u128 position.size_usd BPS_POWER with
        | .error f => .error f
        | .ok lev_num =>
          match checked_div_u128 lev_num target_custody.pricing_max_leverage with
          | .error f => .error f
          | .ok lev_q =>
            match checked_as_u64 lev_q with
            | .error f => .error f
            | .ok lev =>
              match checked_add_u64 position.unsettled_fees_usd lev with
              | .error f => .error f
              | .ok fees_b => checked_add_u64 fees_a fees_b

/-- flash-compute `get_liquidation_price`: the oracle price at which the
position becomes exactly insolvent.  Correlated long markets use the
size-plus-liabilities over size-plus-collateral ratio at the rate exponent;
every other side/correlation combination takes the uncorrelated path, valuing
collateral at its oracle price and moving the entry price by the
loss-equivalent (or, when nominally insolvent, profit-equivalent) delta with
saturating u64 arithmetic. -/
def getLiquidationPrice (position : Position) (side : Side) (correlation : Bool)
    (target_custody collateral_custody : Custody) (collateral_price : OraclePrice)
    (curtime : Int) : Except Failure OraclePrice :=
  match computeLiabilitiesUsd position target_custody collateral_custody curtime with
  | .error f => .error f
  | .ok liabilities_usd =>
    if correlation = true ∧ side = Side.Long then
      match checked_add_u64 position.size_usd liabilities_usd with
      | .error f => .error f
      | .ok num =>
        match checked_pow_u128 10 (position.size_decimals + 3) with
        | .error f => .error f
        | .ok pw =>
          match checked_mul_u128 num pw with
          | .error f => .error f
          | .ok prod =>
            match checked_add_u64 position.size_amount position.collateral_amount with
            | .error f => .error f
            | .ok den =>
              match checked_div_u128 prod den with
              | .error f => .error f
              | .ok q =>
                match checked_as_u64 q with
                | .error f => .error f
                | .ok p =>
                  OraclePrice.scale_to_exponent ⟨p, -9⟩ position.entry_price.exponent
    else
      match collateral_price.get_asset_amount_usd position.collateral_amount
          position.collateral_decimals with
      | .error f => .error f
      | .ok assets_usd =>
        if liabilities_usd ≤ assets_usd then
          match checked_sub_u64 assets_usd liabilities_usd with
          | .error f => .error f
          | .ok diff =>
            match checked_pow_u128 10 (position.size_decimals + 3) with
            | .error f => .error f
            | .ok pw =>
              match checked_mul_u128 diff pw with
              | .error f => .error f
              | .ok prod =>
                match checked_div_u128 prod position.size_amount with
                | .error f => .error f
                | .ok q =>
                  match checked_as_u64 q with
                  | .error f => .error f
                  | .ok dp =>
                    match OraclePrice.scale_to_exponent ⟨dp, -9⟩
                        position.entry_price.exponent with
                    | .error f => .error f
                    | .ok d =>
                      if side = Side.Long then
                        .ok ⟨satSub_u64 position.entry_price.price d.price, d.exponent⟩
                      else
                        .ok ⟨satAdd_u64 position.entry_price.price d.price, d.exponent⟩
        else
          match checked_sub_u64 liabilities_usd assets_usd with
          | .error f => .error f
          | .ok diff =>
            match checked_pow_u128 10 (position.size_decimals + 3) with
            | .error f => .error f
            | .ok pw =>
              match checked_mul_u128 diff pw with
              | .error f => .error f
              | .ok prod =>
                match checked_div_u128 prod position.size_amount with
                | .error f => .error f
                | .ok q =>
                  match checked_as_u64 q with
                  | .error f => .error f
                  | .ok dp =>
                    match OraclePrice.scale_to_exponent ⟨dp, -9⟩
                        position.entry_price.exponent with
                    | .error f => .error f
                    | .ok d =>
                      if side = Side.Long then
                        .ok ⟨satAdd_u64 position.entry_price.price d.price, d.exponent⟩
                      else
                        .ok ⟨satSub_u64 position.entry_price.price d.price, d.exponent⟩

/- ------------------------------------------------------------------
Pool share prices (flash-compute lib.rs, `get_pool_token_prices`), with
states.rs `CustodyDetails`.
------------------------------------------------------------------ -/

/-- The per-custody inputs of `get_pool_token_prices`: the custody fields it
reads plus the raw oracle feed snapshot supplied for that custody.  The feed's
publish time and the custody's max_price_age_sec are part of the supplied
records (PriceUpdateV2 and OracleParams) even though the function does not
read them. -/
structure CustodyInput where
  owned : Nat
  decimals : Nat
  trade_spread_min : Nat
  trade_spread_max : Nat
  delay_seconds : Int
  max_price_age_sec : Nat
  feed_price : Nat
  feed_exponent : Int
  feed_publish_time : Int
deriving DecidableEq

/-- states.rs `CustodyDetails`. -/
structure CustodyDetails where
  trade_spread_min : Nat
  trade_spread_max : Nat
  delay_seconds : Int
  min_price : OraclePrice
  max_price : OraclePrice
deriving DecidableEq

/-- The `CustodyDetails` record pushed for one custody in the first loop of
`get_pool_token_prices`: min and max price are both the raw feed price. -/
def buildCustodyDetails (c : CustodyInput) : CustodyDetails :=
  ⟨c.trade_spread_min, c.trade_spread_max, c.delay_seconds,
   ⟨c.feed_price, c.feed_exponent⟩, ⟨c.feed_price, c.feed_exponent⟩⟩

/-- One iteration of the first loop of `get_pool_token_prices`: add the USD
value of the custody's owned assets at the feed price onto the 128-bit
equity accumulator. -/
def custodyStep (equity : Nat) (c : CustodyInput) : Except Failure Nat :=
  match OraclePrice.get_asset_amount_usd ⟨c.feed_price, c.feed_exponent⟩ c.owned c.decimals with
  | .error f => .error f
  | .ok usd => checked_add_u128 equity usd

/-- The first loop of `get_pool_token_prices` over the pool's custodies. -/
def custodiesLoop (equity : Nat) : List CustodyInput → Except Failure Nat
  | [] => .ok equity
  | c :: rest =>
    match custodyStep equity c with
    | .error f => .error f
    | .ok e2 => custodiesLoop e2 rest

/-- The exit-price computation of one market iteration of
`get_pool_token_prices`: for shorts the max price plus the ceiling-rounded
max-side spread; otherwise the min price minus the min-side spread, floored
at zero.  Out-of-range custody indexing is a Rust panic. -/
def marketExitPrice (ds : List CustodyDetails) (m : Market) : Except Failure OraclePrice :=
  match ds[m.target_custody_id]? with
  | none => .error .panicked
  | some td =>
    if m.side = Side.Short then
      match checked_decimal_ceil_mul td.max_price.price td.max_price.exponent
          td.trade_spread_max (-6) td.max_price.exponent with
      | .error f => .error f
      | .ok sp =>
        match checked_add_u64 td.max_price.price sp with
        | .error f => .error f
        | .ok p => .ok ⟨p, td.max_price.exponent⟩
    else
      match checked_decimal_mul td.min_price.price td.min_price.exponent
          td.trade_spread_min (-6) td.min_price.exponent with
      | .error f => .error f
      | .ok sp =>
        if sp < td.min_price.price then
          match checked_sub_u64 td.min_price.price sp with
          | .error f => .error f
          | .ok p => .ok ⟨p, td.min_price.exponent⟩
        else .ok ⟨0, td.min_price.exponent⟩

/-- One iteration of the second loop of `get_pool_token_prices`: compare the
exit price with the collective entry price and subtract capped trader profit
(saturating at zero) from, or add capped trader loss (via
`checked_add(..).unwrap()`, a panic on overflow) to, the equity accumulator. -/
def marketStep (ds : List CustodyDetails) (equity : Nat) (m : Market) : Except Failure Nat :=
  let pos := get_collective_position m
  match marketExitPrice ds m with
  | .error f => .error f
  | .ok exit_price =>
    if m.side = Side.Short then
      if exit_price.pcmp pos.entry_price = some Ordering.lt then
        match pos.entry_price.checked_sub exit_price with
        | .error f => .error f
        | .ok d =>
          match d.get_asset_amount_usd pos.size_amount pos.size_decimals with
          | .error f => .error f
          | .ok pnl =>
            match ds[m.collateral_custody_id]? with
            | none => .error .panicked
            | some cd =>
              match cd.min_price.get_asset_amount_usd pos.locked_amount pos.locked_decimals with
              | .error f => .error f
              | .ok lck => .ok (equity - min pnl lck)
      else
        match exit_price.checked_sub pos.entry_price with
        | .error f => .error f
        | .ok d =>
          match d.get_asset_amount_usd pos.size_amount pos.size_decimals with
          | .error f => .error f
          | .ok pnl =>
            match ds[m.collateral_custody_id]? with
            | none => .error .panicked
            | some cd =>
              match cd.min_price.get_asset_amount_usd pos.collateral_amount
                  pos.collateral_decimals with
              | .error f => .error f
              | .ok col =>
                match checked_add_u128 equity (min pnl col) with
                | .error _ => .error .panicked
                | .ok e2 => .ok e2
    else
      if exit_price.pcmp pos.entry_price = some Ordering.gt then
        match exit_price.checked_sub pos.entry_price with
        | .error f => .error f
        | .ok d =>
          match d.get_asset_amount_usd pos.size_amount pos.size_decimals with
          | .error f => .error f
          | .ok pnl =>
            match ds[m.collateral_custody_id]? with
            | none => .error .panicked
            | some cd =>
              match cd.min_price.get_asset_amount_usd pos.locked_amount pos.locked_decimals with
              | .error f => .error f
              | .ok lck => .ok (equity - min pnl lck)
      else
        match pos.entry_price.checked_sub exit_price with
        | .error f => .error f
        | .ok d =>
          match d.get_asset_amount_usd pos.size_amount pos.size_decimals with
          | .error f => .error f
          | .ok pnl =>
            match ds[m.collateral_custody_id]? with
            | none => .error .panicked
            | some cd =>
              match cd.min_price.get_asset_amount_usd pos.collateral_amount
                  pos.collateral_decimals with
              | .error f => .error f
              | .ok col =>
                match checked_add_u128 equity (min pnl col) with
                | .error _ => .error .panicked
                | .ok e2 => .ok e2

/-- The second loop of `get_pool_token_prices` over the pool's markets. -/
def marketsLoop (ds : List CustodyDetails) (equity : Nat) : List Market → Except Failure Nat
  | [] => .ok equity
  | m :: rest =>
    match marketStep ds equity m with
    | .error f => .error f
    | .ok e2 => marketsLoop ds e2 rest

/-- flash-compute `get_pool_token_prices`: pool equity over the custodies,
netted trader PnL over the markets, then the two share prices
(share price = equity / lp supply; tradable price = share price times the
compounding factor active_amount / total_supply). -/
def getPoolTokenPrices (custodies : List CustodyInput) (markets : List Market)
    (lp_supply : Nat) (comp_active comp_total : Nat) : Except Failure (Nat × Nat) :=
  let ds := custodies.map buildCustodyDetails
  match custodiesLoop 0 custodies with
  | .error f => .error f
  | .ok equity =>
    match marketsLoop ds equity markets with
    | .error f => .error f
    | .ok equity2 =>
      match checked_as_u64 equity2 with
      | .error f => .error f
      | .ok e64 =>
        match checked_decimal_div e64 (-(USD_DECIMALS : Int)) lp_supply
            (-(LP_DECIMALS : Int)) (-(USD_DECIMALS : Int)) with
        | .error f => .error f
        | .ok sflp =>
          match checked_decimal_div comp_active (-(LP_DECIMALS : Int)) comp_total
              (-(LP_DECIMALS : Int)) (-(LP_DECIMALS : Int)) with
          | .error f => .error f
          | .ok cf =>
            match checked_decimal_mul sflp (-(USD_DECIMALS : Int)) cf
                (-(LP_DECIMALS : Int)) (-(USD_DECIMALS : Int)) with
            | .error f => .error f
            | .ok flp => .ok (sflp, flp)

/-- Pointwise agreement of two per-custody inputs on every field that
`get_pool_token_prices` reads (all but the feed publish time). -/
def sameExceptPublishTime (a b : CustodyInput) : Prop :=
  a.owned = b.owned ∧ a.decimals = b.decimals ∧
  a.trade_spread_min = b.trade_spread_min ∧ a.trade_spread_max = b.trade_spread_max ∧
  a.delay_seconds = b.delay_seconds ∧ a.max_price_age_sec = b.max_price_age_sec ∧
  a.feed_price = b.feed_price ∧ a.feed_exponent = b.feed_exponent

/- ------------------------------------------------------------------
Helper lemmas about the checked arithmetic operations.
------------------------------------------------------------------ -/

theorem checked_add_u64_ok_val {a b v : Nat} (h : checked_add_u64 a b = .ok v) :
    v = a + b ∧ a + b < U64_SIZE := by
  unfold checked_add_u64 at h
  split at h
  · injection h with h2; subst h2; exact ⟨rfl, by assumption⟩
  · exact Except.noConfusion h

theorem checked_add_u64_eq_ok {a b : Nat} (h : a + b < U64_SIZE) :
    checked_add_u64 a b = .ok (a + b) := by
  unfold checked_add_u64; rw [if_pos h]

theorem checked_sub_u64_ok_val {a b v : Nat} (h : checked_sub_u64 a b = .ok v) :
    v = a - b ∧ b ≤ a := by
  unfold checked_sub_u64 at h
  split at h
  · injection h with h2; subst h2; exact ⟨rfl, by assumption⟩
  · exact Except.noConfusion h

theorem checked_sub_u64_eq_ok {a b : Nat} (h : b ≤ a) :
    checked_sub_u64 a b = .ok (a - b) := by
  unfold checked_sub_u64; rw [if_pos h]

theorem checked_mul_u128_ok_val {a b v : Nat} (h : checked_mul_u128 a b = .ok v) :
    v = a * b ∧ a * b < U128_SIZE := by
  unfold checked_mul_u128 at h
  split at h
  · injection h with h2; subst h2; exact ⟨rfl, by assumption⟩
  · exact Except.noConfusion h

theorem checked_mul_u128_eq_ok {a b : Nat} (h : a * b < U128_SIZE) :
    checked_mul_u128 a b = .ok (a * b) := by
  unfold checked_mul_u128; rw [if_pos h]

theorem checked_add_u128_ok_val {a b v : Nat} (h : checked_add_u128 a b = .ok v) :
    v = a + b ∧ a + b < U128_SIZE := by
  unfold checked_add_u128 at h
  split at h
  · injection h with h2; subst h2; exact ⟨rfl, by assumption⟩
  · exact Except.noConfusion h

theorem checked_add_u128_eq_ok {a b : Nat} (h : a + b < U128_SIZE) :
    checked_add_u128 a b = .ok (a + b) := by
  unfold checked_add_u128; rw [if_pos h]

theorem checked_add_u128_overflow {a b : Nat} (h : U128_SIZE ≤ a + b) :
    checked_add_u128 a b = .error (.err .MathOverflow) := by
  unfold checked_add_u128; rw [if_neg (by omega)]

theorem checked_sub_u128_ok_val {a b v : Nat} (h : checked_sub_u128 a b = .ok v) :
    v = a - b ∧ b ≤ a := by
  unfold checked_sub_u128 at h
  split at h
  · injection h with h2; subst h2; exact ⟨rfl, by assumption⟩
  · exact Except.noConfusion h

theorem checked_sub_u128_eq_ok {a b : Nat} (h : b ≤ a) :
    checked_sub_u128 a b = .ok (a - b) := by
  unfold checked_sub_u128; rw [if_pos h]

theorem checked_div_u128_ok_val {a b v : Nat} (h : checked_div_u128 a b = .ok v) :
    v = a / b ∧ b ≠ 0 := by
  unfold checked_div_u128 at h
  split at h
  · exact Except.noConfusion h
  · injection h with h2; subst h2; exact ⟨rfl, by assumption⟩

theorem checked_div_u128_eq_ok {a b : Nat} (h : b ≠ 0) :
    checked_div_u128 a b = .ok (a / b) := by
  unfold checked_div_u128; rw [if_neg h]

theorem checked_ceil_div_u128_ok_val {a b v : Nat} (h : checked_ceil_div_u128 a b = .ok v) :
    v = (a + b - 1) / b ∧ b ≠ 0 := by
  unfold checked_ceil_div_u128 at h
  split at h
  · exact Except.noConfusion h
  · injection h with h2; subst h2; exact ⟨rfl, by assumption⟩

theorem checked_ceil_div_u128_eq_ok {a b : Nat} (h : b ≠ 0) :
    checked_ceil_div_u128 a b = .ok ((a + b - 1) / b) := by
  unfold checked_ceil_div_u128; rw [if_neg h]

theorem checked_as_u64_ok_val {a v : Nat} (h : checked_as_u64 a = .ok v) :
    v = a ∧ a < U64_SIZE := by
  unfold checked_as_u64 at h
  split at h
  · injection h with h2; subst h2; exact ⟨rfl, by assumption⟩
  · exact Except.noConfusion h

theorem checked_as_u64_eq_ok {a : Nat} (h : a < U64_SIZE) :
    checked_as_u64 a = .ok a := by
  unfold checked_as_u64; rw [if_pos h]

theorem checked_pow_u128_ok_val {b e v : Nat} (h : checked_pow_u128 b e = .ok v) :
    v = b ^ e ∧ b ^ e < U128_SIZE := by
  unfold checked_pow_u128 at h
  split at h
  · injection h with h2; subst h2; exact ⟨rfl, by assumption⟩
  · exact Except.noConfusion h

theorem checked_pow_u128_eq_ok {b e : Nat} (h : b ^ e < U128_SIZE) :
    checked_pow_u128 b e = .ok (b ^ e) := by
  unfold checked_pow_u128; rw [if_pos h]

theorem checked_pow_u64_eq_ok {b e : Nat} (h : b ^ e < U64_SIZE) :
    checked_pow_u64 b e = .ok (b ^ e) := by
  unfold checked_pow_u64; rw [if_pos h]

theorem checked_mul_u64_eq_ok {a b : Nat} (h : a * b < U64_SIZE) :
    checked_mul_u64 a b = .ok (a * b) := by
  unfold checked_mul_u64; rw [if_pos h]

theorem checked_sub_i64_ok_val {a b v : Int} (h : checked_sub_i64 a b = .ok v) :
    v = a - b ∧ I64_MIN ≤ a - b ∧ a - b ≤ I64_MAX := by
  unfold checked_sub_i64 at h
  split at h
  · injection h with h2; subst h2; exact ⟨rfl, by assumption⟩
  · exact Except.noConfusion h

theorem checked_sub_i64_eq_ok {a b : Int} (h1 : I64_MIN ≤ a - b) (h2 : a - b ≤ I64_MAX) :
    checked_sub_i64 a b = .ok (a - b) := by
  unfold checked_sub_i64; rw [if_pos ⟨h1, h2⟩]

theorem checked_sub_i32_eq_ok {a b : Int} (h1 : I32_MIN ≤ a - b) (h2 : a - b ≤ I32_MAX) :
    checked_sub_i32 a b = .ok (a - b) := by
  unfold checked_sub_i32; rw [if_pos ⟨h1, h2⟩]

/-- `OraclePrice::checked_sub` on mismatched exponents fails with
ExponentMismatch. -/
theorem OraclePrice.checked_sub_mismatch (a b : OraclePrice)
    (h : a.exponent ≠ b.exponent) :
    a.checked_sub b = .error (.err .ExponentMismatch) := by
  unfold OraclePrice.checked_sub; rw [if_neg h]

/-- `OraclePrice::checked_sub` succeeds only on exactly equal exponents. -/
theorem OraclePrice.checked_sub_ok_exponent {a b c : OraclePrice}
    (h : a.checked_sub b = .ok c) : a.exponent = b.exponent := by
  by_cases he : a.exponent = b.exponent
  · exact he
  · rw [a.checked_sub_mismatch b he] at h; exact Except.noConfusion h

/- ------------------------------------------------------------------
Fee accrual: characterization and monotonicity lemmas.
------------------------------------------------------------------ -/

/-- Value characterization of a successful `get_cumulative_lock_fee` call. -/
theorem get_cumulative_lock_fee_char (c : Custody) (n : Int) (u : Nat)
    (h : get_cumulative_lock_fee c n = .ok u) :
    (n ≤ c.borrow_rate_state.last_update ∧ u = c.borrow_rate_state.cumulative_lock_fee) ∨
    (c.borrow_rate_state.last_update < n ∧
      u = c.borrow_rate_state.cumulative_lock_fee +
        ((n - c.borrow_rate_state.last_update).toNat * c.borrow_rate_state.current_rate
          + 3600 - 1) / 3600) := by
  unfold get_cumulative_lock_fee at h
  split at h
  case isTrue hlt =>
    right
    refine ⟨hlt, ?_⟩
    cases hs : checked_sub_i64 n c.borrow_rate_state.last_update with
    | error f => simp only [hs] at h; exact Except.noConfusion h
    | ok dt =>
      simp only [hs] at h
      obtain ⟨hdt, -, -⟩ := checked_sub_i64_ok_val hs
      subst hdt
      cases hm : checked_mul_u128 (n - c.borrow_rate_state.last_update).toNat
          c.borrow_rate_state.current_rate with
      | error f => simp only [hm] at h; exact Except.noConfusion h
      | ok prod =>
        simp only [hm] at h
        obtain ⟨hp, -⟩ := checked_mul_u128_ok_val hm
        subst hp
        cases hc : checked_ceil_div_u128
            ((n - c.borrow_rate_state.last_update).toNat * c.borrow_rate_state.current_rate)
            3600 with
        | error f => simp only [hc] at h; exact Except.noConfusion h
        | ok fee =>
          simp only [hc] at h
          obtain ⟨hf, -⟩ := checked_ceil_div_u128_ok_val hc
          subst hf
          obtain ⟨hu, -⟩ := checked_add_u128_ok_val h
          exact hu
  case isFalse hge =>
    injection h with h2
    exact Or.inl ⟨by omega, h2.symm⟩

/-- Monotonicity of the cumulative lock-fee index in the time argument. -/
theorem get_cumulative_lock_fee_mono {c : Custody} {n1 n2 : Int} {u1 u2 : Nat}
    (h12 : n1 ≤ n2) (h1 : get_cumulative_lock_fee c n1 = .ok u1)
    (h2 : get_cumulative_lock_fee c n2 = .ok u2) : u1 ≤ u2 := by
  rcases get_cumulative_lock_fee_char c n1 u1 h1 with ⟨hle1, hv1⟩ | ⟨hlt1, hv1⟩ <;>
    rcases get_cumulative_lock_fee_char c n2 u2 h2 with ⟨hle2, hv2⟩ | ⟨hlt2, hv2⟩
  · omega
  · subst hv1; subst hv2; exact Nat.le_add_right _ _
  · omega
  · subst hv1; subst hv2
    have hdt : (n1 - c.borrow_rate_state.last_update).toNat ≤
        (n2 - c.borrow_rate_state.last_update).toNat := by
      apply Int.toNat_le_toNat; omega
    have hmul : (n1 - c.borrow_rate_state.last_update).toNat *
        c.borrow_rate_state.current_rate ≤
        (n2 - c.borrow_rate_state.last_update).toNat * c.borrow_rate_state.current_rate :=
      Nat.mul_le_mul_right _ hdt
    have := Nat.div_le_div_right (c := 3600) (by omega :
      (n1 - c.borrow_rate_state.last_update).toNat * c.borrow_rate_state.current_rate
        + 3600 - 1 ≤
      (n2 - c.borrow_rate_state.last_update).toNat * c.borrow_rate_state.current_rate
        + 3600 - 1)
    omega

/-- Value characterization of a successful `get_lock_fee_usd` call. -/
theorem get_lock_fee_usd_char (c : Custody) (p : Position) (n : Int) (v : Nat)
    (h : get_lock_fee_usd c p n = .ok v) :
    ((p.locked_usd = 0 ∨ c.is_virtual = true) ∧ v = 0) ∨
    (¬(p.locked_usd = 0 ∨ c.is_virtual = true) ∧
      ∃ cum, get_cumulative_lock_fee c n = .ok cum ∧
        ((cum ≤ p.cumulative_lock_fee_snapshot ∧ v = 0) ∨
         (p.cumulative_lock_fee_snapshot < cum ∧
           v = (cum - p.cumulative_lock_fee_snapshot) * p.locked_usd / RATE_POWER))) := by
  unfold get_lock_fee_usd at h
  split at h
  case isTrue hz =>
    injection h with h2
    exact Or.inl ⟨hz, h2.symm⟩
  case isFalse hz =>
    right
    refine ⟨hz, ?_⟩
    cases hc : get_cumulative_lock_fee c n with
    | error f => simp only [hc] at h; exact Except.noConfusion h
    | ok cum =>
      simp only [hc] at h
      refine ⟨cum, rfl, ?_⟩
      split at h
      case isTrue hlt =>
        right
        refine ⟨hlt, ?_⟩
        cases hs : checked_sub_u128 cum p.cumulative_lock_fee_snapshot with
        | error f => simp only [hs] at h; exact Except.noConfusion h
        | ok d =>
          simp only [hs] at h
          obtain ⟨hd, -⟩ := checked_sub_u128_ok_val hs
          subst hd
          cases hm : checked_mul_u128 (cum - p.cumulative_lock_fee_snapshot) p.locked_usd with
          | error f => simp only [hm] at h; exact Except.noConfusion h
          | ok prod =>
            simp only [hm] at h
            obtain ⟨hp2, -⟩ := checked_mul_u128_ok_val hm
            subst hp2
            cases hdv : checked_div_u128
                ((cum - p.cumulative_lock_fee_snapshot) * p.locked_usd) RATE_POWER with
            | error f => simp only [hdv] at h; exact Except.noConfusion h
            | ok q =>
              simp only [hdv] at h
              obtain ⟨hq, -⟩ := checked_div_u128_ok_val hdv
              subst hq
              obtain ⟨hv, -⟩ := checked_as_u64_ok_val h
              exact hv
      case isFalse hge =>
        injection h with h2
        exact Or.inl ⟨by omega, h2.symm⟩

/-- C5: for every custody and timestamp `now`, if `now > last_update` then
`get_cumulative_lock_fee` returns the stored cumulative_lock_fee plus
ceil_div((now - last_update) * current_rate, 3600) (under the checked-range
side conditions of the i64 subtraction and u128 addition), and if
`now ≤ last_update` it returns the stored cumulative_lock_fee unchanged. -/
theorem get_cumulative_lock_fee_spec :
    (∀ (c : Custody) (now : Int),
       c.borrow_rate_state.last_update < now →
       now - c.borrow_rate_state.last_update ≤ I64_MAX →
       (now - c.borrow_rate_state.last_update).toNat * c.borrow_rate_state.current_rate
         < U128_SIZE →
       c.borrow_rate_state.cumulative_lock_fee +
         ((now - c.borrow_rate_state.last_update).toNat * c.borrow_rate_state.current_rate
           + 3600 - 1) / 3600 < U128_SIZE →
       get_cumulative_lock_fee c now =
         .ok (c.borrow_rate_state.cumulative_lock_fee +
           ((now - c.borrow_rate_state.last_update).toNat * c.borrow_rate_state.current_rate
             + 3600 - 1) / 3600)) ∧
    (∀ (c : Custody) (now : Int),
       now ≤ c.borrow_rate_state.last_update →
       get_cumulative_lock_fee c now = .ok c.borrow_rate_state.cumulative_lock_fee) := by
  constructor
  · intro c now h1 h2 h3 h4
    unfold get_cumulative_lock_fee
    rw [if_pos h1]
    rw [checked_sub_i64_eq_ok (by unfold I64_MIN; omega) h2]
    simp only [checked_mul_u128_eq_ok h3]
    simp only [checked_ceil_div_u128_eq_ok (by omega : (3600 : Nat) ≠ 0)]
    exact checked_add_u128_eq_ok h4
  · intro c now h1
    unfold get_cumulative_lock_fee
    rw [if_neg (by omega)]

theorem get_cumulative_lock_fee_spec_witness :
    get_cumulative_lock_fee ⟨6, false, false, 0, 200000, ⟨7200, 1000, 100⟩⟩ 1900 = .ok 4600 ∧
    get_cumulative_lock_fee ⟨6, false, false, 0, 200000, ⟨7200, 1000, 100⟩⟩ 50 = .ok 1000 := by
  constructor
  · have h := get_cumulative_lock_fee_spec.1 ⟨6, false, false, 0, 200000, ⟨7200, 1000, 100⟩⟩
      1900 (by decide) (by decide) (by decide) (by decide)
    have h2 : (1000 + ((((1900 : Int) - 100).toNat * 7200) + 3600 - 1) / 3600) = 4600 := by
      decide
    rw [h2] at h
    exact h
  · exact get_cumulative_lock_fee_spec.2 ⟨6, false, false, 0, 200000, ⟨7200, 1000, 100⟩⟩
      50 (by decide)

/-- C6 counterexample: a non-virtual custody whose stored cumulative index is
ahead of the position's snapshot yields a strictly positive lock fee at
`now == borrow_rate_state.last_update`, refuting "exactly 0 when
now == last_update". -/
theorem get_lock_fee_usd_nonzero_at_last_update :
    get_lock_fee_usd ⟨6, false, false, 0, 200000, ⟨5, 2000000000, 100⟩⟩
      ⟨0, ⟨100, -8⟩, 0, 0, 0, 1000000000, 0, 0, 0, 0, 0, 6, 6, 6⟩ 100 = .ok 2000000000 ∧
    (⟨6, false, false, 0, 200000, ⟨5, 2000000000, 100⟩⟩ : Custody).is_virtual = false ∧
    (⟨6, false, false, 0, 200000, ⟨5, 2000000000, 100⟩⟩ :
      Custody).borrow_rate_state.last_update = 100 :=
  ⟨rfl, rfl, rfl⟩

/-- C6 (amended): for fixed custody and position, `get_lock_fee_usd` is
non-decreasing in `now` over successful calls; it is exactly 0 whenever the
custody is virtual; and it is 0 at `now ≤ last_update` provided the position's
cumulative-fee snapshot is at least the custody's stored cumulative index
(without that proviso the stored index delta is charged even at
`now == last_update`). -/
theorem get_lock_fee_usd_monotone :
    (∀ (c : Custody) (p : Position) (n1 n2 : Int) (v1 v2 : Nat),
       n1 ≤ n2 → get_lock_fee_usd c p n1 = .ok v1 → get_lock_fee_usd c p n2 = .ok v2 →
       v1 ≤ v2) ∧
    (∀ (c : Custody) (p : Position) (n : Int), c.is_virtual = true →
       get_lock_fee_usd c p n = .ok 0) ∧
    (∀ (c : Custody) (p : Position) (n : Int),
       n ≤ c.borrow_rate_state.last_update →
       c.borrow_rate_state.cumulative_lock_fee ≤ p.cumulative_lock_fee_snapshot →
       get_lock_fee_usd c p n = .ok 0) := by
  refine ⟨?_, ?_, ?_⟩
  · intro c p n1 n2 v1 v2 h12 h1 h2
    rcases get_lock_fee_usd_char c p n1 v1 h1 with ⟨-, hv1⟩ | ⟨hg1, cum1, hc1, hrest1⟩
    · subst hv1; exact Nat.zero_le _
    · rcases get_lock_fee_usd_char c p n2 v2 h2 with ⟨hg2, -⟩ | ⟨-, cum2, hc2, hrest2⟩
      · exact absurd hg2 hg1
      · have hcm : cum1 ≤ cum2 := get_cumulative_lock_fee_mono h12 hc1 hc2
        rcases hrest1 with ⟨-, hv1⟩ | ⟨hlt1, hv1⟩
        · subst hv1; exact Nat.zero_le _
        · rcases hrest2 with ⟨hle2, -⟩ | ⟨-, hv2⟩
          · omega
          · subst hv1; subst hv2
            apply Nat.div_le_div_right
            apply Nat.mul_le_mul_right
            omega
  · intro c p n hv
    unfold get_lock_fee_usd
    rw [if_pos (Or.inr hv)]
  · intro c p n hle hsnap
    unfold get_lock_fee_usd
    split
    · rfl
    · rw [get_cumulative_lock_fee_spec.2 c n hle]
      simp only []
      rw [if_neg (by omega)]

theorem get_lock_fee_usd_monotone_witness :
    get_lock_fee_usd ⟨6, false, false, 0, 200000, ⟨7200, 0, 100⟩⟩
      ⟨0, ⟨100, -8⟩, 0, 0, 0, 1000000000, 0, 0, 0, 0, 0, 6, 6, 6⟩ 100 = .ok 0 ∧
    (0 : Nat) ≤ 7200 ∧
    get_lock_fee_usd ⟨6, false, true, 0, 200000, ⟨7200, 0, 100⟩⟩
      ⟨0, ⟨100, -8⟩, 0, 0, 0, 1000000000, 0, 0, 0, 0, 0, 6, 6, 6⟩ 500 = .ok 0 := by
  refine ⟨?_, ?_, ?_⟩
  · exact get_lock_fee_usd_monotone.2.2 ⟨6, false, false, 0, 200000, ⟨7200, 0, 100⟩⟩
      ⟨0, ⟨100, -8⟩, 0, 0, 0, 1000000000, 0, 0, 0, 0, 0, 6, 6, 6⟩ 100 (by decide) (by decide)
  · have ha : get_lock_fee_usd ⟨6, false, false, 0, 200000, ⟨7200, 0, 100⟩⟩
        ⟨0, ⟨100, -8⟩, 0, 0, 0, 1000000000, 0, 0, 0, 0, 0, 6, 6, 6⟩ 100 = .ok 0 := rfl
    have hb : get_lock_fee_usd ⟨6, false, false, 0, 200000, ⟨7200, 0, 100⟩⟩
        ⟨0, ⟨100, -8⟩, 0, 0, 0, 1000000000, 0, 0, 0, 0, 0, 6, 6, 6⟩ 3700 = .ok 7200 := rfl
    exact get_lock_fee_usd_monotone.1 _ _ 100 3700 0 7200 (by norm_num) ha hb
  · exact get_lock_fee_usd_monotone.2.1 ⟨6, false, true, 0, 200000, ⟨7200, 0, 100⟩⟩
      ⟨0, ⟨100, -8⟩, 0, 0, 0, 1000000000, 0, 0, 0, 0, 0, 6, 6, 6⟩ 500 rfl

/- ------------------------------------------------------------------
Oracle ingestion claims.
------------------------------------------------------------------ -/

/-- C1 counterexample: a fresh feed whose divergence fails the first check and
whose confidence passes the bps check, but whose confidence exceeds its price:
`fetch_from_oracle` fails with an arithmetic overflow (from
`checked_sub(price, conf)`) instead of returning the confidence band claimed
for every input with `conf_bps < max_conf_bps`. -/
theorem fetch_from_oracle_conf_band_underflow :
    ¬ isStale 0 60 0 ∧
    computeDivergenceBps ⟨100, -6, 200, 200, 0⟩ false = .ok 5000 ∧
    ¬ ((5000 : Nat) < 1) ∧
    200 * BPS_POWER / 100 < (30000 : Nat) ∧
    fetch_from_oracle ⟨100, -6, 200, 200, 0⟩ ⟨1, 30000, 60, 0⟩ 0 false =
      .error (.err .MathOverflow) :=
  ⟨by decide, rfl, by decide, by decide, rfl⟩

/-- C1 (amended): `fetch_from_oracle` fails on a stale feed; returns
(price, price, volatile=false) when the computed divergence is below
max_divergence_bps; when divergence is not below the bound and
conf * BPS_POWER / price is below max_conf_bps it returns the band
(price - conf, price + conf, volatile=true) provided conf ≤ price and
price + conf fits in u64 (otherwise the checked sub/add fails with an
arithmetic error); and when the confidence check also fails it errors with
InvalidOraclePrice. -/
theorem fetch_from_oracle_spec :
    (∀ (o : CustomOracle) (params : OracleParams) (t : Int) (s : Bool),
       isStale o.publish_time params.max_price_age_sec t →
       fetch_from_oracle o params t s = .error (.err .InvalidOraclePrice)) ∧
    (∀ (o : CustomOracle) (params : OracleParams) (t : Int) (s : Bool) (d : Nat),
       ¬ isStale o.publish_time params.max_price_age_sec t →
       computeDivergenceBps o s = .ok d →
       d < params.max_divergence_bps →
       fetch_from_oracle o params t s = .ok (⟨o.price, o.expo⟩, ⟨o.price, o.expo⟩, false)) ∧
    (∀ (o : CustomOracle) (params : OracleParams) (t : Int) (s : Bool) (d : Nat),
       ¬ isStale o.publish_time params.max_price_age_sec t →
       computeDivergenceBps o s = .ok d →
       ¬ d < params.max_divergence_bps →
       o.conf < U64_SIZE → o.price ≠ 0 →
       o.conf * BPS_POWER / o.price < params.max_conf_bps →
       o.conf ≤ o.price → o.price + o.conf < U64_SIZE →
       fetch_from_oracle o params t s =
         .ok (⟨o.price - o.conf, o.expo⟩, ⟨o.price + o.conf, o.expo⟩, true)) ∧
    (∀ (o : CustomOracle) (params : OracleParams) (t : Int) (s : Bool) (d : Nat),
       ¬ isStale o.publish_time params.max_price_age_sec t →
       computeDivergenceBps o s = .ok d →
       ¬ d < params.max_divergence_bps →
       o.conf < U64_SIZE → o.price ≠ 0 →
       ¬ o.conf * BPS_POWER / o.price < params.max_conf_bps →
       fetch_from_oracle o params t s = .error (.err .InvalidOraclePrice)) := by
  have hmul : ∀ (o : CustomOracle), o.conf < U64_SIZE →
      checked_mul_u128 o.conf BPS_POWER = .ok (o.conf * BPS_POWER) := by
    intro o hc
    apply checked_mul_u128_eq_ok
    unfold BPS_POWER U128_SIZE
    unfold U64_SIZE at hc
    norm_num at hc ⊢
    omega
  refine ⟨?_, ?_, ?_, ?_⟩
  · intro o params t s h
    unfold isStale at h
    unfold fetch_from_oracle
    rw [if_pos h]
  · intro o params t s d h1 h2 h3
    unfold isStale at h1
    unfold fetch_from_oracle
    rw [if_neg h1]
    simp only [h2]
    rw [if_pos h3]
  · intro o params t s d h1 h2 h3 hc hp h6 h7 h8
    unfold isStale at h1
    unfold fetch_from_oracle
    rw [if_neg h1]
    simp only [h2]
    rw [if_neg h3]
    simp only [hmul o hc]
    simp only [checked_div_u128_eq_ok hp]
    rw [if_pos h6]
    simp only [checked_sub_u64_eq_ok h7]
    simp only [checked_add_u64_eq_ok h8]
  · intro o params t s d h1 h2 h3 hc hp h6
    unfold isStale at h1
    unfold fetch_from_oracle
    rw [if_neg h1]
    simp only [h2]
    rw [if_neg h3]
    simp only [hmul o hc]
    simp only [checked_div_u128_eq_ok hp]
    rw [if_neg h6]

theorem fetch_from_oracle_spec_witness :
    fetch_from_oracle ⟨100, -6, 50, 200, 0⟩ ⟨1, 30000, 60, 0⟩ 0 false =
      .ok (⟨50, -6⟩, ⟨150, -6⟩, true) := by
  have hd : computeDivergenceBps ⟨100, -6, 50, 200, 0⟩ false = .ok 5000 := rfl
  exact fetch_from_oracle_spec.2.2.1 ⟨100, -6, 50, 200, 0⟩ ⟨1, 30000, 60, 0⟩ 0 false 5000
    (by decide) hd (by decide) (by decide) (by decide) (by decide) (by decide) (by decide)

/- ------------------------------------------------------------------
Liquidation-price claims.
------------------------------------------------------------------ -/

/-- C2: in a market with correlation = true and side = Long,
`get_liquidation_price` returns
(size_usd + liabilities_usd) * 10^(size_decimals+3) /
(size_amount + collateral_amount) expressed at the fixed rate exponent -9 and
rescaled to the position's entry-price exponent, under the checked-range side
conditions of the intermediate arithmetic. -/
theorem get_liquidation_price_correlated_long :
    ∀ (pos : Position) (tc cc : Custody) (cp : OraclePrice) (t : Int) (L : Nat),
      computeLiabilitiesUsd pos tc cc t = .ok L →
      pos.size_usd + L < U64_SIZE →
      10 ^ (pos.size_decimals + 3) < U128_SIZE →
      (pos.size_usd + L) * 10 ^ (pos.size_decimals + 3) < U128_SIZE →
      pos.size_amount + pos.collateral_amount < U64_SIZE →
      pos.size_amount + pos.collateral_amount ≠ 0 →
      (pos.size_usd + L) * 10 ^ (pos.size_decimals + 3) /
        (pos.size_amount + pos.collateral_amount) < U64_SIZE →
      getLiquidationPrice pos Side.Long true tc cc cp t =
        OraclePrice.scale_to_exponent
          ⟨(pos.size_usd + L) * 10 ^ (pos.size_decimals + 3) /
            (pos.size_amount + pos.collateral_amount), -9⟩
          pos.entry_price.exponent := by
  intro pos tc cc cp t L hL h1 h2 h3 h4 h5 h6
  unfold getLiquidationPrice
  simp only [hL]
  rw [if_pos (show True ∧ True from ⟨trivial, trivial⟩)]
  simp only [checked_add_u64_eq_ok h1, checked_pow_u128_eq_ok h2,
    checked_mul_u128_eq_ok h3, checked_add_u64_eq_ok h4,
    checked_div_u128_eq_ok h5, checked_as_u64_eq_ok h6]

theorem get_liquidation_price_correlated_long_witness :
    getLiquidationPrice ⟨0, ⟨1000000, -6⟩, 500000000, 1000000000, 0, 0, 500000000,
        0, 0, 0, 0, 6, 6, 6⟩ Side.Long true ⟨6, false, false, 0, 200000, ⟨0, 0, 0⟩⟩
        ⟨6, false, true, 0, 1, ⟨0, 0, 0⟩⟩ ⟨200000000, -8⟩ 0 = .ok ⟨1050000, -6⟩ := by
  have hL : computeLiabilitiesUsd ⟨0, ⟨1000000, -6⟩, 500000000, 1000000000, 0, 0,
      500000000, 0, 0, 0, 0, 6, 6, 6⟩ ⟨6, false, false, 0, 200000, ⟨0, 0, 0⟩⟩
      ⟨6, false, true, 0, 1, ⟨0, 0, 0⟩⟩ 0 = .ok 50000000 := rfl
  have h := get_liquidation_price_correlated_long ⟨0, ⟨1000000, -6⟩, 500000000,
      1000000000, 0, 0, 500000000, 0, 0, 0, 0, 6, 6, 6⟩
      ⟨6, false, false, 0, 200000, ⟨0, 0, 0⟩⟩ ⟨6, false, true, 0, 1, ⟨0, 0, 0⟩⟩
      ⟨200000000, -8⟩ 0 50000000 hL (by decide) (by decide) (by decide) (by decide)
      (by decide) (by decide)
  rw [h]
  rfl

/-- C10: a market record with correlation = true and side = Short is not
rejected: it takes the uncorrelated-market path of `get_liquidation_price`
(the result is identical to correlation = false on all inputs), and in the
nominally solvent case the result is the entry price moved up by
(assets_usd - liabilities_usd) * 10^(size_decimals+3) / size_amount (rescaled
to the entry exponent) with saturating u64 addition. -/
theorem get_liquidation_price_correlated_short_routes_uncorrelated :
    (∀ (pos : Position) (tc cc : Custody) (cp : OraclePrice) (t : Int),
       getLiquidationPrice pos Side.Short true tc cc cp t =
         getLiquidationPrice pos Side.Short false tc cc cp t) ∧
    (∀ (pos : Position) (tc cc : Custody) (cp : OraclePrice) (t : Int) (L A : Nat)
       (dp : OraclePrice),
       computeLiabilitiesUsd pos tc cc t = .ok L →
       cp.get_asset_amount_usd pos.collateral_amount pos.collateral_decimals = .ok A →
       L ≤ A →
       10 ^ (pos.size_decimals + 3) < U128_SIZE →
       (A - L) * 10 ^ (pos.size_decimals + 3) < U128_SIZE →
       pos.size_amount ≠ 0 →
       (A - L) * 10 ^ (pos.size_decimals + 3) / pos.size_amount < U64_SIZE →
       OraclePrice.scale_to_exponent
           ⟨(A - L) * 10 ^ (pos.size_decimals + 3) / pos.size_amount, -9⟩
           pos.entry_price.exponent = .ok dp →
       getLiquidationPrice pos Side.Short true tc cc cp t =
         .ok ⟨satAdd_u64 pos.entry_price.price dp.price, dp.exponent⟩) := by
  constructor
  · intro pos tc cc cp t
    unfold getLiquidationPrice
    cases computeLiabilitiesUsd pos tc cc t with
    | error f => rfl
    | ok L => rfl
  · intro pos tc cc cp t L A dp hL hA hle h2 h3 h4 h5 hdp
    unfold getLiquidationPrice
    simp only [hL]
    rw [if_neg (by simp)]
    simp only [hA]
    rw [if_pos hle]
    simp only [checked_sub_u64_eq_ok hle, checked_pow_u128_eq_ok h2,
      checked_mul_u128_eq_ok h3, checked_div_u128_eq_ok h4,
      checked_as_u64_eq_ok h5, hdp]
    rw [if_neg (by simp)]

theorem get_liquidation_price_correlated_short_witness :
    getLiquidationPrice ⟨0, ⟨1000000, -6⟩, 1000000, 1000000, 0, 0, 500000,
        0, 0, 0, 0, 6, 6, 6⟩ Side.Short true ⟨6, false, false, 0, 200000, ⟨0, 0, 0⟩⟩
        ⟨6, false, true, 0, 1, ⟨0, 0, 0⟩⟩ ⟨100000000, -8⟩ 0 = .ok ⟨1450000, -6⟩ ∧
    getLiquidationPrice ⟨0, ⟨1000000, -6⟩, 1000000, 1000000, 0, 0, 500000,
        0, 0, 0, 0, 6, 6, 6⟩ Side.Short true ⟨6, false, false, 0, 200000, ⟨0, 0, 0⟩⟩
        ⟨6, false, true, 0, 1, ⟨0, 0, 0⟩⟩ ⟨100000000, -8⟩ 0 =
      getLiquidationPrice ⟨0, ⟨1000000, -6⟩, 1000000, 1000000, 0, 0, 500000,
        0, 0, 0, 0, 6, 6, 6⟩ Side.Short false ⟨6, false, false, 0, 200000, ⟨0, 0, 0⟩⟩
        ⟨6, false, true, 0, 1, ⟨0, 0, 0⟩⟩ ⟨100000000, -8⟩ 0 := by
  constructor
  · have hL : computeLiabilitiesUsd ⟨0, ⟨1000000, -6⟩, 1000000, 1000000, 0, 0, 500000,
        0, 0, 0, 0, 6, 6, 6⟩ ⟨6, false, false, 0, 200000, ⟨0, 0, 0⟩⟩
        ⟨6, false, true, 0, 1, ⟨0, 0, 0⟩⟩ 0 = .ok 50000 := rfl
    have hA : OraclePrice.get_asset_amount_usd ⟨100000000, -8⟩ 500000 6 = .ok 500000 := rfl
    have hdp : OraclePrice.scale_to_exponent
        ⟨(500000 - 50000) * 10 ^ (6 + 3) / 1000000, -9⟩ (-6) = .ok ⟨450000, -6⟩ := rfl
    have h := get_liquidation_price_correlated_short_routes_uncorrelated.2
      ⟨0, ⟨1000000, -6⟩, 1000000, 1000000, 0, 0, 500000, 0, 0, 0, 0, 6, 6, 6⟩
      ⟨6, false, false, 0, 200000, ⟨0, 0, 0⟩⟩ ⟨6, false, true, 0, 1, ⟨0, 0, 0⟩⟩
      ⟨100000000, -8⟩ 0 50000 500000 ⟨450000, -6⟩ hL hA (by decide) (by decide)
      (by decide) (by decide) (by decide) hdp
    rw [h]
    rfl
  · exact get_liquidation_price_correlated_short_routes_uncorrelated.1
      ⟨0, ⟨1000000, -6⟩, 1000000, 1000000, 0, 0, 500000, 0, 0, 0, 0, 6, 6, 6⟩
      ⟨6, false, false, 0, 200000, ⟨0, 0, 0⟩⟩ ⟨6, false, true, 0, 1, ⟨0, 0, 0⟩⟩
      ⟨100000000, -8⟩ 0

/- ------------------------------------------------------------------
Pool-equity claims.
------------------------------------------------------------------ -/

/-- C3: in both aggregate-profit branches of the PnL loop (shorts with
exit < entry, longs with exit > entry) the capped profit
min(notional PnL at size, locked-collateral USD value) is subtracted from pool
equity with Rust `saturating_sub` (truncated subtraction): when the capped
profit reaches or exceeds the accumulated equity the step returns 0, not an
error. -/
theorem pool_equity_profit_saturates :
    (∀ (ds : List CustodyDetails) (equity : Nat) (m : Market) (xp dp : OraclePrice)
       (pnl lck : Nat) (cd : CustodyDetails),
       m.side = Side.Short →
       marketExitPrice ds m = .ok xp →
       xp.pcmp (get_collective_position m).entry_price = some Ordering.lt →
       (get_collective_position m).entry_price.checked_sub xp = .ok dp →
       dp.get_asset_amount_usd (get_collective_position m).size_amount
         (get_collective_position m).size_decimals = .ok pnl →
       ds[m.collateral_custody_id]? = some cd →
       cd.min_price.get_asset_amount_usd (get_collective_position m).locked_amount
         (get_collective_position m).locked_decimals = .ok lck →
       marketStep ds equity m = .ok (equity - min pnl lck) ∧
         (equity ≤ min pnl lck → marketStep ds equity m = .ok 0)) ∧
    (∀ (ds : List CustodyDetails) (equity : Nat) (m : Market) (xp dp : OraclePrice)
       (pnl lck : Nat) (cd : CustodyDetails),
       m.side ≠ Side.Short →
       marketExitPrice ds m = .ok xp →
       xp.pcmp (get_collective_position m).entry_price = some Ordering.gt →
       xp.checked_sub (get_collective_position m).entry_price = .ok dp →
       dp.get_asset_amount_usd (get_collective_position m).size_amount
         (get_collective_position m).size_decimals = .ok pnl →
       ds[m.collateral_custody_id]? = some cd →
       cd.min_price.get_asset_amount_usd (get_collective_position m).locked_amount
         (get_collective_position m).locked_decimals = .ok lck →
       marketStep ds equity m = .ok (equity - min pnl lck) ∧
         (equity ≤ min pnl lck → marketStep ds equity m = .ok 0)) := by
  constructor
  · intro ds equity m xp dp pnl lck cd hside hexit hcmp hsub hpnl hcd hlck
    have hstep : marketStep ds equity m = .ok (equity - min pnl lck) := by
      unfold marketStep
      simp only [hexit, hside, hcmp, hsub, hpnl, hcd, hlck, if_true]
    refine ⟨hstep, fun hle => ?_⟩
    rw [hstep, Nat.sub_eq_zero_of_le hle]
  · intro ds equity m xp dp pnl lck cd hside hexit hcmp hsub hpnl hcd hlck
    have hstep : marketStep ds equity m = .ok (equity - min pnl lck) := by
      unfold marketStep
      simp only [hexit, hside, hcmp, hsub, hpnl, hcd, hlck, if_true, if_false]
    refine ⟨hstep, fun hle => ?_⟩
    rw [hstep, Nat.sub_eq_zero_of_le hle]

theorem pool_equity_profit_saturates_witness :
    marketStep [⟨0, 0, 0, ⟨100, -8⟩, ⟨100, -8⟩⟩] 0
      ⟨Side.Short, false, 0, 0, ⟨1, 0, ⟨200, -8⟩, 1000000, 0, 1000000, 0, 1000000, 0,
        0, 0, 6, 6, 6⟩, 0, 0⟩ = .ok 0 := by
  have hexit : marketExitPrice [⟨0, 0, 0, ⟨100, -8⟩, ⟨100, -8⟩⟩]
      ⟨Side.Short, false, 0, 0, ⟨1, 0, ⟨200, -8⟩, 1000000, 0, 1000000, 0, 1000000, 0,
        0, 0, 6, 6, 6⟩, 0, 0⟩ = .ok ⟨100, -8⟩ := rfl
  have hcmp : OraclePrice.pcmp ⟨100, -8⟩
      (get_collective_position ⟨Side.Short, false, 0, 0, ⟨1, 0, ⟨200, -8⟩, 1000000, 0,
        1000000, 0, 1000000, 0, 0, 0, 6, 6, 6⟩, 0, 0⟩).entry_price = some Ordering.lt := rfl
  have hsub : (get_collective_position ⟨Side.Short, false, 0, 0, ⟨1, 0, ⟨200, -8⟩,
      1000000, 0, 1000000, 0, 1000000, 0, 0, 0, 6, 6, 6⟩, 0, 0⟩).entry_price.checked_sub
      ⟨100, -8⟩ = .ok ⟨100, -8⟩ := rfl
  have hpnl : OraclePrice.get_asset_amount_usd ⟨100, -8⟩ 1000000 6 = .ok 1 := rfl
  have hlck : OraclePrice.get_asset_amount_usd ⟨100, -8⟩ 1000000 6 = .ok 1 := rfl
  have h := (pool_equity_profit_saturates.1 [⟨0, 0, 0, ⟨100, -8⟩, ⟨100, -8⟩⟩] 0
    ⟨Side.Short, false, 0, 0, ⟨1, 0, ⟨200, -8⟩, 1000000, 0, 1000000, 0, 1000000, 0,
      0, 0, 6, 6, 6⟩, 0, 0⟩ ⟨100, -8⟩ ⟨100, -8⟩ 1 1 ⟨0, 0, 0, ⟨100, -8⟩, ⟨100, -8⟩⟩
    rfl hexit hcmp hsub hpnl rfl hlck).2 (by decide)
  exact h

/-- C8 counterexample: a loss-branch market step at equity 2^128 - 1 with a
capped trader loss of 1 overflows the 128-bit `checked_add`, and the code's
`.unwrap()` turns that into a panic rather than into a returned
ArithmeticOverflow-style error. -/
theorem loss_branch_overflow_panics :
    marketStep [⟨0, 0, 0, ⟨200, -8⟩, ⟨200, -8⟩⟩] (2 ^ 128 - 1)
      ⟨Side.Short, false, 0, 0, ⟨1, 0, ⟨100, -8⟩, 1000000, 0, 0, 0, 1000000, 0,
        0, 0, 6, 6, 6⟩, 0, 0⟩ = .error .panicked ∧
    Failure.panicked ≠ Failure.err CompError.MathOverflow :=
  ⟨rfl, by decide⟩

/-- C8 (amended): inside the per-market PnL computations every failing checked
operation is returned as an error, but an overflow of the 128-bit addition of
the capped loss onto pool equity in the two trader-loss branches is a Rust
panic (`checked_add(..).unwrap()`), not a returned error. -/
theorem marketStep_loss_overflow_is_panic :
    (∀ (ds : List CustodyDetails) (equity : Nat) (m : Market) (xp dp : OraclePrice)
       (pnl col : Nat) (cd : CustodyDetails),
       m.side = Side.Short →
       marketExitPrice ds m = .ok xp →
       xp.pcmp (get_collective_position m).entry_price ≠ some Ordering.lt →
       xp.checked_sub (get_collective_position m).entry_price = .ok dp →
       dp.get_asset_amount_usd (get_collective_position m).size_amount
         (get_collective_position m).size_decimals = .ok pnl →
       ds[m.collateral_custody_id]? = some cd →
       cd.min_price.get_asset_amount_usd (get_collective_position m).collateral_amount
         (get_collective_position m).collateral_decimals = .ok col →
       U128_SIZE ≤ equity + min pnl col →
       marketStep ds equity m = .error .panicked) ∧
    (∀ (ds : List CustodyDetails) (equity : Nat) (m : Market) (xp dp : OraclePrice)
       (pnl col : Nat) (cd : CustodyDetails),
       m.side ≠ Side.Short →
       marketExitPrice ds m = .ok xp →
       xp.pcmp (get_collective_position m).entry_price ≠ some Ordering.gt →
       (get_collective_position m).entry_price.checked_sub xp = .ok dp →
       dp.get_asset_amount_usd (get_collective_position m).size_amount
         (get_collective_position m).size_decimals = .ok pnl →
       ds[m.collateral_custody_id]? = some cd →
       cd.min_price.get_asset_amount_usd (get_collective_position m).collateral_amount
         (get_collective_position m).collateral_decimals = .ok col →
       U128_SIZE ≤ equity + min pnl col →
       marketStep ds equity m = .error .panicked) := by
  constructor
  · intro ds equity m xp dp pnl col cd hside hexit hcmp hsub hpnl hcd hcol hof
    unfold marketStep
    simp only [hexit, hside, hcmp, hsub, hpnl, hcd, hcol, if_true, if_false,
      checked_add_u128_overflow hof]
  · intro ds equity m xp dp pnl col cd hside hexit hcmp hsub hpnl hcd hcol hof
    unfold marketStep
    simp only [hexit, hside, hcmp, hsub, hpnl, hcd, hcol, if_true, if_false,
      checked_add_u128_overflow hof]

theorem marketStep_loss_overflow_is_panic_witness :
    marketStep [⟨0, 0, 0, ⟨200, -8⟩, ⟨200, -8⟩⟩] (2 ^ 128 - 2)
      ⟨Side.Short, false, 0, 0, ⟨1, 0, ⟨100, -8⟩, 2000000, 0, 0, 0, 2000000, 0,
        0, 0, 6, 6, 6⟩, 0, 0⟩ = .error .panicked := by
  have hexit : marketExitPrice [⟨0, 0, 0, ⟨200, -8⟩, ⟨200, -8⟩⟩]
      ⟨Side.Short, false, 0, 0, ⟨1, 0, ⟨100, -8⟩, 2000000, 0, 0, 0, 2000000, 0,
        0, 0, 6, 6, 6⟩, 0, 0⟩ = .ok ⟨200, -8⟩ := rfl
  have hcmp : OraclePrice.pcmp ⟨200, -8⟩
      (get_collective_position ⟨Side.Short, false, 0, 0, ⟨1, 0, ⟨100, -8⟩, 2000000, 0,
        0, 0, 2000000, 0, 0, 0, 6, 6, 6⟩, 0, 0⟩).entry_price = some Ordering.gt := rfl
  have hsub : OraclePrice.checked_sub ⟨200, -8⟩
      (get_collective_position ⟨Side.Short, false, 0, 0, ⟨1, 0, ⟨100, -8⟩, 2000000, 0,
        0, 0, 2000000, 0, 0, 0, 6, 6, 6⟩, 0, 0⟩).entry_price = .ok ⟨100, -8⟩ := rfl
  have hpnl : OraclePrice.get_asset_amount_usd ⟨100, -8⟩ 2000000 6 = .ok 2 := rfl
  have hcol : OraclePrice.get_asset_amount_usd ⟨200, -8⟩ 2000000 6 = .ok 4 := rfl
  exact marketStep_loss_overflow_is_panic.1 [⟨0, 0, 0, ⟨200, -8⟩, ⟨200, -8⟩⟩]
    (2 ^ 128 - 2) ⟨Side.Short, false, 0, 0, ⟨1, 0, ⟨100, -8⟩, 2000000, 0, 0, 0,
      2000000, 0, 0, 0, 6, 6, 6⟩, 0, 0⟩ ⟨200, -8⟩ ⟨100, -8⟩ 2 4
    ⟨0, 0, 0, ⟨200, -8⟩, ⟨200, -8⟩⟩ rfl hexit (by decide) hsub hpnl rfl hcol
    (by unfold U128_SIZE; omega)

/-- Every market of a successful `marketsLoop` run had a successful step. -/
theorem marketsLoop_ok_mem {ds : List CustodyDetails} {ms : List Market} {e r : Nat}
    (h : marketsLoop ds e ms = .ok r) :
    ∀ m ∈ ms, ∃ a b, marketStep ds a m = .ok b := by
  induction ms generalizing e with
  | nil => intro m hm; cases hm
  | cons x xs ih =>
    intro m hm
    unfold marketsLoop at h
    cases hx : marketStep ds e x with
    | error f => simp only [hx] at h; exact Except.noConfusion h
    | ok e2 =>
      simp only [hx] at h
      rcases List.mem_cons.mp hm with hmx | hmx
      · exact ⟨e, e2, hmx ▸ hx⟩
      · exact ih h m hmx

/-- A successful market step forces the collective entry-price exponent to
equal the exit-price exponent (both profit and loss branches subtract with
`OraclePrice::checked_sub`, which requires exactly equal exponents). -/
theorem marketStep_ok_exp {ds : List CustodyDetails} {e b : Nat} {m : Market}
    (h : marketStep ds e m = .ok b) :
    ∃ xp, marketExitPrice ds m = .ok xp ∧
      (get_collective_position m).entry_price.exponent = xp.exponent := by
  unfold marketStep at h
  cases hexit : marketExitPrice ds m with
  | error f => simp only [hexit] at h; exact Except.noConfusion h
  | ok xp =>
    refine ⟨xp, rfl, ?_⟩
    simp only [hexit] at h
    by_cases hside : m.side = Side.Short
    · simp only [hside, if_true] at h
      split at h
      · cases hsub : OraclePrice.checked_sub
            (get_collective_position m).entry_price xp with
        | error f => simp only [hsub] at h; exact Except.noConfusion h
        | ok dp => exact OraclePrice.checked_sub_ok_exponent hsub
      · cases hsub : OraclePrice.checked_sub xp
            (get_collective_position m).entry_price with
        | error f => simp only [hsub] at h; exact Except.noConfusion h
        | ok dp => exact (OraclePrice.checked_sub_ok_exponent hsub).symm
    · simp only [hside, if_false] at h
      split at h
      · cases hsub : OraclePrice.checked_sub xp
            (get_collective_position m).entry_price with
        | error f => simp only [hsub] at h; exact Except.noConfusion h
        | ok dp => exact (OraclePrice.checked_sub_ok_exponent hsub).symm
      · cases hsub : OraclePrice.checked_sub
            (get_collective_position m).entry_price xp with
        | error f => simp only [hsub] at h; exact Except.noConfusion h
        | ok dp => exact OraclePrice.checked_sub_ok_exponent hsub

/-- A successful exit-price computation indexes a custody detail and carries
its oracle exponent (max side for shorts, min side otherwise). -/
theorem marketExitPrice_ok_exponent {ds : List CustodyDetails} {m : Market}
    {xp : OraclePrice} (h : marketExitPrice ds m = .ok xp) :
    ∃ td, ds[m.target_custody_id]? = some td ∧
      (xp.exponent = td.max_price.exponent ∨ xp.exponent = td.min_price.exponent) := by
  unfold marketExitPrice at h
  cases htd : ds[m.target_custody_id]? with
  | none => simp only [htd] at h; exact Except.noConfusion h
  | some td =>
    simp only [htd] at h
    refine ⟨td, rfl, ?_⟩
    by_cases hside : m.side = Side.Short
    · simp only [hside, if_true] at h
      left
      cases hsp : checked_decimal_ceil_mul td.max_price.price td.max_price.exponent
          td.trade_spread_max (-6) td.max_price.exponent with
      | error f => simp only [hsp] at h; exact Except.noConfusion h
      | ok sp =>
        simp only [hsp] at h
        cases hadd : checked_add_u64 td.max_price.price sp with
        | error f => simp only [hadd] at h; exact Except.noConfusion h
        | ok p =>
          simp only [hadd] at h
          injection h with h2
          rw [← h2]
    · simp only [hside, if_false] at h
      right
      cases hsp : checked_decimal_mul td.min_price.price td.min_price.exponent
          td.trade_spread_min (-6) td.min_price.exponent with
      | error f => simp only [hsp] at h; exact Except.noConfusion h
      | ok sp =>
        simp only [hsp] at h
        split at h
        · cases hs2 : checked_sub_u64 td.min_price.price sp with
          | error f => simp only [hs2] at h; exact Except.noConfusion h
          | ok p =>
            simp only [hs2] at h
            injection h with h2
            rw [← h2]
        · injection h with h2
          rw [← h2]

/-- C9: `get_pool_token_prices` succeeds only if every market's collective
entry-price exponent equals the feed exponent of its target custody; whenever
they differ (and the exit price itself computed), the PnL step fails with
ExponentMismatch; and a market with no open positions has the defaulted
collective entry-price exponent 0, so it fails against any oracle exponent
other than 0 instead of contributing zero PnL. -/
theorem pool_prices_require_exponent_match :
    (∀ (cs : List CustodyInput) (ms : List Market) (lp ca ct : Nat) (r : Nat × Nat),
       getPoolTokenPrices cs ms lp ca ct = .ok r →
       ∀ m ∈ ms, ∃ c, cs[m.target_custody_id]? = some c ∧
         (get_collective_position m).entry_price.exponent = c.feed_exponent) ∧
    (∀ (ds : List CustodyDetails) (equity : Nat) (m : Market) (xp : OraclePrice),
       marketExitPrice ds m = .ok xp →
       (get_collective_position m).entry_price.exponent ≠ xp.exponent →
       marketStep ds equity m = .error (.err .ExponentMismatch)) ∧
    (∀ m : Market, m.collective_position.open_positions = 0 →
       (get_collective_position m).entry_price.exponent = 0) := by
  refine ⟨?_, ?_, ?_⟩
  · intro cs ms lp ca ct r h m hm
    unfold getPoolTokenPrices at h
    cases hc : custodiesLoop 0 cs with
    | error f => simp only [hc] at h; exact Except.noConfusion h
    | ok e1 =>
      simp only [hc] at h
      cases hm2 : marketsLoop (cs.map buildCustodyDetails) e1 ms with
      | error f => simp only [hm2] at h; exact Except.noConfusion h
      | ok e2 =>
        obtain ⟨a, b, hstep⟩ := marketsLoop_ok_mem hm2 m hm
        obtain ⟨xp, hexit, hexp⟩ := marketStep_ok_exp hstep
        obtain ⟨td, htd, hor⟩ := marketExitPrice_ok_exponent hexit
        rw [List.getElem?_map] at htd
        cases hcs : cs[m.target_custody_id]? with
        | none => rw [hcs] at htd; exact Option.noConfusion htd
        | some c =>
          rw [hcs] at htd
          injection htd with htd2
          refine ⟨c, rfl, ?_⟩
          rcases hor with h1 | h1 <;> rw [hexp, h1, ← htd2] <;> rfl
  · intro ds equity m xp hexit hne
    unfold marketStep
    simp only [hexit]
    by_cases hside : m.side = Side.Short
    · simp only [hside, if_true]
      split
      · simp only [OraclePrice.checked_sub_mismatch _ _ hne]
      · simp only [OraclePrice.checked_sub_mismatch _ _ (Ne.symm hne)]
    · simp only [hside, if_false]
      split
      · simp only [OraclePrice.checked_sub_mismatch _ _ (Ne.symm hne)]
      · simp only [OraclePrice.checked_sub_mismatch _ _ hne]
  · intro m h0
    unfold get_collective_position
    rw [if_neg (by omega)]
    rfl

theorem pool_prices_require_exponent_match_witness :
    (get_collective_position ⟨Side.Short, false, 0, 0, ⟨1, 0, ⟨100, -8⟩, 1000000, 0, 0, 0,
      1000000, 0, 0, 0, 6, 6, 6⟩, 0, 0⟩).entry_price.exponent = (-8 : Int) ∧
    marketStep [⟨0, 0, 0, ⟨100, -8⟩, ⟨100, -8⟩⟩] 5
      ⟨Side.Short, false, 0, 0, ⟨0, 0, ⟨100, -8⟩, 0, 0, 0, 0, 0, 0, 0, 0, 6, 6, 6⟩, 0, 0⟩
      = .error (.err .ExponentMismatch) ∧
    (get_collective_position ⟨Side.Short, false, 0, 0, ⟨0, 0, ⟨100, -8⟩, 0, 0, 0, 0, 0,
      0, 0, 0, 6, 6, 6⟩, 0, 0⟩).entry_price.exponent = 0 := by
  refine ⟨?_, ?_, ?_⟩
  · have hok : getPoolTokenPrices [⟨1000000, 6, 0, 0, 0, 60, 100, -8, 0⟩]
        [⟨Side.Short, false, 0, 0, ⟨1, 0, ⟨100, -8⟩, 1000000, 0, 0, 0, 1000000, 0, 0, 0,
          6, 6, 6⟩, 0, 0⟩] 1000000 1000000 1000000 = .ok (0, 0) := rfl
    obtain ⟨c, hc, hexp⟩ := pool_prices_require_exponent_match.1 _ _ _ _ _ _ hok
      ⟨Side.Short, false, 0, 0, ⟨1, 0, ⟨100, -8⟩, 1000000, 0, 0, 0, 1000000, 0, 0, 0,
        6, 6, 6⟩, 0, 0⟩ (List.mem_singleton.mpr rfl)
    injection hc with hc2
    rw [hexp, ← hc2]
    rfl
  · exact pool_prices_require_exponent_match.2.1 [⟨0, 0, 0, ⟨100, -8⟩, ⟨100, -8⟩⟩] 5
      ⟨Side.Short, false, 0, 0, ⟨0, 0, ⟨100, -8⟩, 0, 0, 0, 0, 0, 0, 0, 0, 6, 6, 6⟩, 0, 0⟩
      ⟨100, -8⟩ rfl (by decide)
  · exact pool_prices_require_exponent_match.2.2 _ rfl

/-- C4 counterexample: a feed that is stale by the staleness predicate of
`fetch_from_oracle` (published at time 0, max age 60 s, current time 10^6) is
accepted by `get_pool_token_prices`, which values the custody's assets at the
raw feed price and succeeds; it performs no oracle validation at all. -/
theorem get_pool_token_prices_stale_feed_accepted :
    isStale 0 60 1000000 ∧
    getPoolTokenPrices [⟨1000000, 6, 0, 0, 0, 60, 200000000, -8, 0⟩] []
      1000000 1000000 1000000 = .ok (2000000, 2000000) :=
  ⟨by decide, rfl⟩

theorem buildCustodyDetails_congr {a b : CustodyInput} (h : sameExceptPublishTime a b) :
    buildCustodyDetails a = buildCustodyDetails b := by
  obtain ⟨h1, h2, h3, h4, h5, h6, h7, h8⟩ := h
  unfold buildCustodyDetails
  rw [h3, h4, h5, h7, h8]

theorem custodyStep_congr {a b : CustodyInput} (e : Nat) (h : sameExceptPublishTime a b) :
    custodyStep e a = custodyStep e b := by
  obtain ⟨h1, h2, h3, h4, h5, h6, h7, h8⟩ := h
  unfold custodyStep
  rw [h1, h2, h7, h8]

theorem map_buildCustodyDetails_congr {cs1 cs2 : List CustodyInput}
    (h : List.Forall₂ sameExceptPublishTime cs1 cs2) :
    cs1.map buildCustodyDetails = cs2.map buildCustodyDetails := by
  induction h with
  | nil => rfl
  | cons hrel hrest ih => simp only [List.map_cons, buildCustodyDetails_congr hrel, ih]

theorem custodiesLoop_congr {cs1 cs2 : List CustodyInput}
    (h : List.Forall₂ sameExceptPublishTime cs1 cs2) :
    ∀ e, custodiesLoop e cs1 = custodiesLoop e cs2 := by
  induction h with
  | nil => intro e; rfl
  | cons hrel hrest ih =>
    intro e
    unfold custodiesLoop
    rw [custodyStep_congr e hrel]
    cases custodyStep e _ with
    | error f => rfl
    | ok e2 => exact ih e2

/-- C4 (amended): `get_pool_token_prices` reads neither the feeds' publish
times nor any current time: its result is unchanged under arbitrary changes of
the supplied publish timestamps, so a stale feed is never rejected; the raw
feed price is used as both min and max price. -/
theorem get_pool_token_prices_ignores_publish_time :
    ∀ (cs1 cs2 : List CustodyInput) (ms : List Market) (lp ca ct : Nat),
      List.Forall₂ sameExceptPublishTime cs1 cs2 →
      getPoolTokenPrices cs1 ms lp ca ct = getPoolTokenPrices cs2 ms lp ca ct := by
  intro cs1 cs2 ms lp ca ct h
  unfold getPoolTokenPrices
  rw [map_buildCustodyDetails_congr h, custodiesLoop_congr h 0]

theorem get_pool_token_prices_ignores_publish_time_witness :
    getPoolTokenPrices [⟨1000000, 6, 0, 0, 0, 60, 200000000, -8, 0⟩] []
      1000000 1000000 1000000 =
    getPoolTokenPrices [⟨1000000, 6, 0, 0, 0, 60, 200000000, -8, 999999⟩] []
      1000000 1000000 1000000 :=
  get_pool_token_prices_ignores_publish_time _ _ _ _ _ _
    (List.Forall₂.cons ⟨rfl, rfl, rfl, rfl, rfl, rfl, rfl, rfl⟩ List.Forall₂.nil)

/- ------------------------------------------------------------------
Decimal-price comparison claims.
------------------------------------------------------------------ -/

/-- C7 counterexample: (10, -1) and (1, 0) denote the same real value 1.0, yet
the derived `PartialEq` of `OraclePrice` (field-wise structural equality, the
Rust `==`) distinguishes them. -/
theorem oracle_price_eq_not_value_invariant :
    sameRealValue ⟨10, -1⟩ ⟨1, 0⟩ ∧
    OraclePrice.structEq ⟨10, -1⟩ ⟨1, 0⟩ = false ∧
    (⟨10, -1⟩ : OraclePrice) ≠ ⟨1, 0⟩ :=
  ⟨by decide, rfl, by decide⟩

theorem nat_compare_self (n : Nat) : compare n n = Ordering.eq :=
  Nat.compare_eq_eq.mpr rfl

theorem pow10_le_19 {d : Nat} (h : 10 ^ d < U64_SIZE) : d ≤ 19 := by
  by_contra hc
  push_neg at hc
  have h20 : (10 : Nat) ^ 20 ≤ 10 ^ d := Nat.pow_le_pow_right (by norm_num) (by omega)
  unfold U64_SIZE at h
  norm_num at h h20
  omega

/-- `scale_to_exponent` from a larger exponent down by a gap of d multiplies
the mantissa by 10^d (and succeeds when both the power and the product fit in
u64). -/
theorem scale_down_by_pow {m2 : Nat} {e : Int} {d : Nat} (hd : 0 < d)
    (hpow : 10 ^ d < U64_SIZE) (hmul : m2 * 10 ^ d < U64_SIZE) :
    OraclePrice.scale_to_exponent ⟨m2, e + (d : Int)⟩ e = .ok ⟨m2 * 10 ^ d, e⟩ := by
  have hd19 : d ≤ 19 := pow10_le_19 hpow
  unfold OraclePrice.scale_to_exponent
  dsimp only
  rw [if_neg (by omega : ¬ e = e + (d : Int))]
  have hmin : I32_MIN ≤ e - (e + (d : Int)) := by unfold I32_MIN; norm_num; omega
  have hmax : e - (e + (d : Int)) ≤ I32_MAX := by unfold I32_MAX; norm_num; omega
  have heq : e - (e + (d : Int)) = -(d : Int) := by ring
  rw [checked_sub_i32_eq_ok hmin hmax, heq]
  simp only [neg_neg, Int.toNat_natCast]
  rw [if_neg (by omega : ¬ (0 : Int) < -(d : Int))]
  simp only [checked_pow_u64_eq_ok hpow, checked_mul_u64_eq_ok hmul]

/-- C7 (amended): two mantissa/exponent pairs denoting the same real value
compare as Equal through the PartialOrd implementation (in both argument
orders), provided the rescale succeeds — which it does whenever the smaller
mantissa is positive or the exponent gap is at most 19; the derived `==`,
however, is structural and is not exponent-invariant (see the
counterexample). -/
theorem pcmp_value_invariant :
    ∀ (m1 m2 : Nat) (e : Int) (d : Nat),
      m1 < U64_SIZE → m2 < U64_SIZE →
      sameRealValue ⟨m1, e⟩ ⟨m2, e + (d : Int)⟩ →
      (0 < m2 ∨ 10 ^ d < U64_SIZE) →
      OraclePrice.pcmp ⟨m1, e⟩ ⟨m2, e + (d : Int)⟩ = some Ordering.eq ∧
      OraclePrice.pcmp ⟨m2, e + (d : Int)⟩ ⟨m1, e⟩ = some Ordering.eq := by
  intro m1 m2 e d hb1 hb2 hsv hside
  have hm : m1 = m2 * 10 ^ d := by
    unfold sameRealValue at hsv
    dsimp only at hsv
    have hmin : min e (e + (d : Int)) = e := min_eq_left (by omega)
    rw [hmin] at hsv
    have h1 : (e - e).toNat = 0 := by omega
    have h2 : (e + (d : Int) - e).toNat = d := by omega
    rw [h1, h2] at hsv
    simpa using hsv
  have hpow : 10 ^ d < U64_SIZE := by
    rcases hside with hm2 | hp
    · calc (10 : Nat) ^ d ≤ m2 * 10 ^ d := Nat.le_mul_of_pos_left _ hm2
        _ = m1 := hm.symm
        _ < U64_SIZE := hb1
    · exact hp
  have hmul : m2 * 10 ^ d < U64_SIZE := hm ▸ hb1
  rcases Nat.eq_zero_or_pos d with hd0 | hdpos
  · subst hd0
    have hmm : m1 = m2 := by simpa using hm
    constructor
    · unfold OraclePrice.pcmp
      dsimp only
      rw [if_pos (by omega : e = e + ((0 : Nat) : Int))]
      rw [hmm, nat_compare_self]
    · unfold OraclePrice.pcmp
      dsimp only
      rw [if_pos (by omega : e + ((0 : Nat) : Int) = e)]
      rw [hmm, nat_compare_self]
  · constructor
    · unfold OraclePrice.pcmp
      dsimp only
      rw [if_neg (by omega : ¬ e = e + (d : Int))]
      rw [if_pos (by omega : e < e + (d : Int))]
      simp only [scale_down_by_pow hdpos hpow hmul]
      rw [hm, nat_compare_self]
    · unfold OraclePrice.pcmp
      dsimp only
      rw [if_neg (by omega : ¬ e + (d : Int) = e)]
      rw [if_neg (by omega : ¬ e + (d : Int) < e)]
      simp only [scale_down_by_pow hdpos hpow hmul]
      rw [hm, nat_compare_self]

theorem pcmp_value_invariant_witness :
    OraclePrice.pcmp ⟨500, -3⟩ ⟨5, -1⟩ = some Ordering.eq ∧
    OraclePrice.pcmp ⟨5, -1⟩ ⟨500, -3⟩ = some Ordering.eq := by
  have h := pcmp_value_invariant 500 5 (-3) 2 (by decide) (by decide) (by decide)
    (Or.inl (by decide))
  exact h
